import Mathlib

/-!
# CAN driver of CANopenNode_ESP32

A shallow embedding of `src/port/CO_driver.c` (with the types of
`src/port/CO_driver_target.h`) and the properties of its transmit path,
receive matching and bus-health sampling.

Conventions of the embedding:

* C arrays are lists; a pointer into `txArray` / `rxArray` is the index of the
  slot it points to; an absent (NULL) pointer is `none`.
* `uint16_t` / `uint32_t` values are natural numbers; where the C arithmetic can
  wrap (`CANtxCount++`, `CANtxCount--`, the casts of the sampled counters) the
  reduction modulo `2^16` is written out.
* The FreeRTOS mutex around the transmit path makes each critical section
  atomic; the embedding is sequential and runs one critical section at a time.
  The task notification sent by `CO_CANsend` is not part of the state: a wake of
  the transmit task is a step that may be taken at any time.
* Calls into the TWAI controller are parameters: the outcome of every
  `twai_transmit` attempt, the status record read by `twai_get_status_info`,
  the results of installing and starting the controller.
-/

namespace CANopenNode_ESP32

/-! ## Types of `CO_driver_target.h` -/

/-- The values of `CO_ReturnError_t` that the driver returns. -/
inductive CO_ReturnError_t where
  | CO_ERROR_NO
  | CO_ERROR_ILLEGAL_ARGUMENT
  | CO_ERROR_OUT_OF_MEMORY
  | CO_ERROR_TX_OVERFLOW
  | CO_ERROR_ILLEGAL_BAUDRATE
  deriving DecidableEq, Repr

open CO_ReturnError_t

/-- Received message object `CO_CANrx_t`. The owner object and the callback are
pointers: `none` is NULL, `some a` a pointer with address `a`. -/
structure CO_CANrx_t where
  ident : Nat
  mask : Nat
  object : Option Nat
  CANrx_callback : Option Nat
  deriving DecidableEq, Repr

/-- Transmit message object `CO_CANtx_t`. -/
structure CO_CANtx_t where
  ident : Nat
  DLC : Nat
  data : List Nat
  bufferFull : Bool
  syncFlag : Bool
  deriving DecidableEq, Repr

/-- CAN module object `CO_CANmodule_t`. The arrays are held by value; the mutex
buffers and handles are left out (see the conventions above). -/
structure CO_CANmodule_t where
  CANptr : Option Nat
  rxArray : List CO_CANrx_t
  rxSize : Nat
  txArray : List CO_CANtx_t
  txSize : Nat
  CANerrorStatus : Nat
  CANnormal : Bool
  useCANrxFilters : Bool
  bufferInhibitFlag : Bool
  firstCANtxMessage : Bool
  CANtxCount : Nat
  errOld : Nat
  deriving DecidableEq, Repr

/-! ## Bits of `CANerrorStatus`

The enumeration `CO_CAN_ERR_status_t` is declared in the CANopenNode stack
header `301/CO_driver.h`, which `CO_driver.c` includes and which is not among
the sources of this repository. -/

/-- Modelled from the spec: the transmit-warning bit of the sticky status
bitmask; `301/CO_driver.h` (not under src/) gives it the value 0x0001. -/
def CO_CAN_ERRTX_WARNING : Nat := 0x0001

/-- Modelled from the spec: the transmit-passive bit; 0x0002 in
`301/CO_driver.h`. -/
def CO_CAN_ERRTX_PASSIVE : Nat := 0x0002

/-- Modelled from the spec: the bus-off bit; 0x0004 in `301/CO_driver.h`. -/
def CO_CAN_ERRTX_BUS_OFF : Nat := 0x0004

/-- Modelled from the spec: the transmit-overflow bit; 0x0008 in
`301/CO_driver.h`. -/
def CO_CAN_ERRTX_OVERFLOW : Nat := 0x0008

/-- Modelled from the spec: the late-synchronous-frame bit; 0x0080 in
`301/CO_driver.h`. -/
def CO_CAN_ERRTX_PDO_LATE : Nat := 0x0080

/-- Modelled from the spec: the receive-warning bit; 0x0100 in
`301/CO_driver.h`. -/
def CO_CAN_ERRRX_WARNING : Nat := 0x0100

/-- Modelled from the spec: the receive-passive bit; 0x0200 in
`301/CO_driver.h`. -/
def CO_CAN_ERRRX_PASSIVE : Nat := 0x0200

/-- Modelled from the spec: the receive-overflow bit; 0x0800 in
`301/CO_driver.h`. -/
def CO_CAN_ERRRX_OVERFLOW : Nat := 0x0800

/-! ## File-scope state and controller of `CO_driver.c` -/

/-- The file-scope variables `bInstalled`, `xCoTxTaskHandle`,
`xCoRxTaskHandle`, and the two facts about the TWAI controller that
`CO_CANmodule_init` changes. -/
structure DriverState where
  bInstalled : Bool
  xCoTxTaskHandle : Option Nat
  xCoRxTaskHandle : Option Nat
  twaiInstalled : Bool
  twaiStarted : Bool
  deriving DecidableEq, Repr

/-- Outcomes of the platform calls made by `CO_CANmodule_init`:
`twai_driver_install` and `twai_start` report `ESP_OK` or not, and each
`xTaskCreateStaticPinnedToCore` returns a handle or NULL. -/
structure InitEnv where
  installOk : Bool
  startOk : Bool
  txTaskHandle : Option Nat
  rxTaskHandle : Option Nat
  deriving DecidableEq, Repr

/-- What a call of `CO_CANmodule_init` leaves behind. `ret = none` means that
`ESP_ERROR_CHECK` aborted the program; `module` is the content of `*CANmodule`
afterwards (`none` when the pointer was NULL). -/
structure InitResult where
  ret : Option CO_ReturnError_t
  module : Option CO_CANmodule_t
  driver : DriverState
  deriving DecidableEq, Repr

/-! ## `CO_CANmodule_init` -/

/-- The loop `for (i = 0U; i < rxSize; i++)` of `CO_CANmodule_init` over the
receive array. -/
def initRxArray : List CO_CANrx_t → Nat → List CO_CANrx_t
  | [], _ => []
  | b :: rest, 0 => b :: rest
  | _ :: rest, n + 1 =>
      { ident := 0, mask := 0xFFFF, object := none, CANrx_callback := none }
        :: initRxArray rest n

/-- The loop `for (i = 0U; i < txSize; i++)` of `CO_CANmodule_init` over the
transmit array. -/
def initTxArray : List CO_CANtx_t → Nat → List CO_CANtx_t
  | [], _ => []
  | b :: rest, 0 => b :: rest
  | b :: rest, n + 1 => { b with bufferFull := false } :: initTxArray rest n

/-- The bit-rate search of `CO_CANmodule_init`: the value of `i` when the loop
over `baudrate_config` ends (at the first entry whose `kbps` equals
`CANbitRate`, or at the table size when there is none). The table is given by
its `kbps` column; which entries it has depends on the build configuration. -/
def baudrateSearch : List Nat → Nat → Nat
  | [], _ => 0
  | kbps :: rest, CANbitRate =>
      if CANbitRate = kbps then 0 else baudrateSearch rest CANbitRate + 1

/-- `CO_CANmodule_init`. -/
def CO_CANmodule_init (baudrate_config : List Nat) (env : InitEnv) (drv : DriverState)
    (CANmodule : Option CO_CANmodule_t) (CANptr : Option Nat)
    (rxArray : Option (List CO_CANrx_t)) (rxSize : Nat)
    (txArray : Option (List CO_CANtx_t)) (txSize : Nat) (CANbitRate : Nat) : InitResult :=
  match CANmodule, rxArray, txArray with
  | some _, some rx, some tx =>
      let m : CO_CANmodule_t :=
        { CANptr := CANptr
          rxArray := initRxArray rx rxSize
          rxSize := rxSize
          txArray := initTxArray tx txSize
          txSize := txSize
          CANerrorStatus := 0
          CANnormal := false
          useCANrxFilters := false
          bufferInhibitFlag := false
          firstCANtxMessage := true
          CANtxCount := 0
          errOld := 0 }
      if baudrateSearch baudrate_config CANbitRate ≥ baudrate_config.length then
        { ret := some CO_ERROR_ILLEGAL_BAUDRATE, module := some m, driver := drv }
      else if drv.bInstalled != true then
        if !env.installOk then
          { ret := none, module := some m, driver := drv }
        else if !env.startOk then
          { ret := none, module := some m, driver := { drv with twaiInstalled := true } }
        else
          let drv1 : DriverState :=
            { drv with twaiInstalled := true, twaiStarted := true, bInstalled := true
                       xCoTxTaskHandle := env.txTaskHandle }
          match env.txTaskHandle with
          | none => { ret := some CO_ERROR_OUT_OF_MEMORY, module := some m, driver := drv1 }
          | some _ =>
              let drv2 : DriverState := { drv1 with xCoRxTaskHandle := env.rxTaskHandle }
              match env.rxTaskHandle with
              | none => { ret := some CO_ERROR_OUT_OF_MEMORY, module := some m, driver := drv2 }
              | some _ => { ret := some CO_ERROR_NO, module := some m, driver := drv2 }
      else
        { ret := some CO_ERROR_NO, module := some m, driver := drv }
  | _, _, _ =>
      { ret := some CO_ERROR_ILLEGAL_ARGUMENT, module := CANmodule, driver := drv }

/-! ## Slot registration -/

/-- `CO_CANrxBufferInit`: the module afterwards and the return value. -/
def CO_CANrxBufferInit (CANmodule : Option CO_CANmodule_t) (index ident mask : Nat)
    (rtr : Bool) (object : Option Nat) (CANrx_callback : Option Nat) :
    Option CO_CANmodule_t × CO_ReturnError_t :=
  match CANmodule, object, CANrx_callback with
  | some m, some obj, some cb =>
      if index < m.rxSize then
        let ident1 := ident &&& 0x07FF
        let ident2 := if rtr then ident1 ||| 0x0800 else ident1
        let buffer : CO_CANrx_t :=
          { object := some obj, CANrx_callback := some cb, ident := ident2
            mask := (mask &&& 0x07FF) ||| 0x0800 }
        (some { m with rxArray := m.rxArray.set index buffer }, CO_ERROR_NO)
      else (some m, CO_ERROR_ILLEGAL_ARGUMENT)
  | _, _, _ => (CANmodule, CO_ERROR_ILLEGAL_ARGUMENT)

/-- `CO_CANtxBufferInit`: the module afterwards and the returned buffer pointer
(the index of the slot, or `none` for NULL). -/
def CO_CANtxBufferInit (CANmodule : Option CO_CANmodule_t) (index ident : Nat)
    (rtr : Bool) (noOfBytes : Nat) (syncFlag : Bool) :
    Option CO_CANmodule_t × Option Nat :=
  match CANmodule with
  | some m =>
      if index < m.txSize then
        match m.txArray[index]? with
        | some b =>
            let ident1 := ident &&& 0x07FF
            let ident2 := if rtr then ident1 ||| 0x0800 else ident1
            let buffer : CO_CANtx_t :=
              { b with ident := ident2, DLC := noOfBytes, bufferFull := false
                       syncFlag := syncFlag }
            (some { m with txArray := m.txArray.set index buffer }, some index)
        | none => (some m, some index)
      else (some m, none)
  | none => (none, none)

/-! ## Transmit path -/

/-- `CO_CANsend` on the buffer with index `buffer` of `txArray`. The result is
`none` when there is no such buffer; otherwise the module afterwards and the
returned error code. -/
def CO_CANsend (CANmodule : CO_CANmodule_t) (buffer : Nat) :
    Option (CO_CANmodule_t × CO_ReturnError_t) :=
  match CANmodule.txArray[buffer]? with
  | none => none
  | some b =>
      -- Verify overflow
      let status :=
        if b.bufferFull then
          if !CANmodule.firstCANtxMessage then
            CANmodule.CANerrorStatus ||| CO_CAN_ERRTX_OVERFLOW
          else CANmodule.CANerrorStatus
        else CANmodule.CANerrorStatus
      let err := if b.bufferFull then CO_ERROR_TX_OVERFLOW else CO_ERROR_NO
      -- critical section: mark the buffer and count it
      some ({ CANmodule with
                CANerrorStatus := status
                txArray := CANmodule.txArray.set buffer { b with bufferFull := true }
                CANtxCount := (CANmodule.CANtxCount + 1) % 65536 }, err)

/-- The loop `for (i = CANmodule->txSize; i > 0U; i--)` of
`CO_CANclearPendingSyncPDOs` over the first `n` slots: the slots afterwards,
`CANtxCount` afterwards and `tpdoDeleted` afterwards. -/
def clearSyncLoop : List CO_CANtx_t → Nat → Nat → Nat → List CO_CANtx_t × Nat × Nat
  | [], _, cnt, del => ([], cnt, del)
  | b :: rest, 0, cnt, del => (b :: rest, cnt, del)
  | b :: rest, n + 1, cnt, del =>
      if b.bufferFull && b.syncFlag then
        let r := clearSyncLoop rest n ((cnt + 65535) % 65536) 2
        ({ b with bufferFull := false } :: r.1, r.2.1, r.2.2)
      else
        let r := clearSyncLoop rest n cnt del
        (b :: r.1, r.2.1, r.2.2)

/-- `CO_CANclearPendingSyncPDOs`. -/
def CO_CANclearPendingSyncPDOs (CANmodule : CO_CANmodule_t) : CO_CANmodule_t :=
  let tpdoDeleted0 := if CANmodule.bufferInhibitFlag then 1 else 0
  let m1 : CO_CANmodule_t := { CANmodule with bufferInhibitFlag := false }
  let r :=
    if m1.CANtxCount ≠ 0 then clearSyncLoop m1.txArray m1.txSize m1.CANtxCount tpdoDeleted0
    else (m1.txArray, m1.CANtxCount, tpdoDeleted0)
  let m2 : CO_CANmodule_t := { m1 with txArray := r.1, CANtxCount := r.2.1 }
  if r.2.2 ≠ 0 then
    { m2 with CANerrorStatus := m2.CANerrorStatus ||| CO_CAN_ERRTX_PDO_LATE }
  else m2

/-- The scan `for (int i = 0; i < CANmodule->txSize; i++)` of `CO_txTask` over
the first `n` slots, `i` being the index of the head of the list: the index of
the first slot whose `bufferFull` is set, with that slot. -/
def txScan : List CO_CANtx_t → Nat → Nat → Option (Nat × CO_CANtx_t)
  | [], _, _ => none
  | _ :: _, 0, _ => none
  | b :: rest, n + 1, i => if b.bufferFull then some (i, b) else txScan rest n (i + 1)

/-- One pass through the body of `while (CANmodule->CANtxCount > 0U)` in
`CO_txTask`. `sendOk` tells whether `twai_transmit` returns `ESP_OK` if it is
called in this pass. The result is the module afterwards and the index of the
slot handed to the controller, if one was. -/
def txTaskPass (CANmodule : CO_CANmodule_t) (sendOk : Bool) : CO_CANmodule_t × Option Nat :=
  match txScan CANmodule.txArray CANmodule.txSize 0 with
  | none => (CANmodule, none)
  | some (i, pCanTx) =>
      let txArray1 :=
        if sendOk then CANmodule.txArray.set i { pCanTx with bufferFull := false }
        else CANmodule.txArray
      ({ CANmodule with
           txArray := txArray1
           CANtxCount := (CANmodule.CANtxCount + 65535) % 65536
           bufferInhibitFlag := pCanTx.syncFlag }, some i)

/-- The loop `while (CANmodule->CANtxCount > 0U)` of `CO_txTask`, run for at most
`fuel` passes. `twai k` is the outcome of the `k`-th call of `twai_transmit`
since the wake, `k` the number of calls made so far, `sent` the calls made so
far (slot index and outcome). The result is `none` when the loop has not ended
within `fuel` passes. -/
def txTaskLoop (twai : Nat → Bool) :
    Nat → Nat → CO_CANmodule_t → List (Nat × Bool) → Option (CO_CANmodule_t × List (Nat × Bool))
  | 0, _, _, _ => none
  | fuel + 1, k, m, sent =>
      if m.CANtxCount > 0 then
        match txTaskPass m (twai k) with
        | (m1, some i) => txTaskLoop twai fuel (k + 1) m1 (sent ++ [(i, twai k)])
        | (m1, none) => txTaskLoop twai fuel k m1 sent
      else some (m, sent)

/-- One wake of `CO_txTask`: the body of `while (1)` after `xTaskNotifyWait`
returns. The result is the module when the lock is released and the calls of
`twai_transmit` made (slot index and outcome), or `none` when the drain loop
has not ended within `fuel` passes. -/
def CO_txTask (twai : Nat → Bool) (fuel : Nat) (CANmodule : CO_CANmodule_t) :
    Option (CO_CANmodule_t × List (Nat × Bool)) :=
  txTaskLoop twai fuel 0
    { CANmodule with firstCANtxMessage := false, bufferInhibitFlag := false } []

/-! ## Receive path -/

/-- A call `buffer->CANrx_callback(buffer->object, rcvMsg)` made by `CO_rxTask`:
the index of the slot `buffer` points to, the callback and the owner object. -/
structure RxCall where
  slot : Nat
  callback : Nat
  object : Option Nat
  deriving DecidableEq, Repr

/-- The search `for (index = CANmodule->rxSize; index > 0U; index--)` of
`CO_rxTask` over the first `n` slots, `i` being the index of the head of the
list: the slot at which the loop breaks, if it does. -/
def rxSearch (rcvMsgIdent : Nat) : List CO_CANrx_t → Nat → Nat → Option (Nat × CO_CANrx_t)
  | [], _, _ => none
  | _ :: _, 0, _ => none
  | b :: rest, n + 1, i =>
      if (rcvMsgIdent ^^^ b.ident) &&& b.mask = 0 then some (i, b)
      else rxSearch rcvMsgIdent rest n (i + 1)

/-- The handling of one received frame with identifier `rcvMsgIdent` by
`CO_rxTask`: the callback it calls, if any. -/
def CO_rxTask (CANmodule : CO_CANmodule_t) (rcvMsgIdent : Nat) : Option RxCall :=
  match rxSearch rcvMsgIdent CANmodule.rxArray CANmodule.rxSize 0 with
  | some (i, buffer) =>
      match buffer.CANrx_callback with
      | some cb => some { slot := i, callback := cb, object := buffer.object }
      | none => none
  | none => none

/-! ## Bus health -/

/-- The fields of `twai_status_info_t` that `CO_CANmodule_process` reads. -/
structure twai_status_info_t where
  tx_error_counter : Nat
  rx_error_counter : Nat
  rx_overrun_count : Nat
  deriving DecidableEq, Repr

/-- The value `txErrors = (uint16_t)(statusInfo.tx_error_counter)`. -/
def txErrors (statusInfo : twai_status_info_t) : Nat := statusInfo.tx_error_counter % 65536

/-- The value `rxErrors = (uint16_t)(statusInfo.rx_error_counter)`. -/
def rxErrors (statusInfo : twai_status_info_t) : Nat := statusInfo.rx_error_counter % 65536

/-- The value `overflow = (uint16_t)(statusInfo.rx_overrun_count)`. -/
def overflow (statusInfo : twai_status_info_t) : Nat := statusInfo.rx_overrun_count % 65536

/-- The value `err` that `CO_CANmodule_process` compares with `errOld`. -/
def errValue (statusInfo : twai_status_info_t) : Nat :=
  ((txErrors statusInfo <<< 16) ||| (rxErrors statusInfo <<< 8)) ||| overflow statusInfo

/-- The status computed in the branch `if (CANmodule->errOld != err)` of
`CO_CANmodule_process` from the previous `CANerrorStatus` and the sampled
counters. -/
def processStatus (status0 tx rx ovf : Nat) : Nat :=
  let status1 :=
    if tx ≥ 256 then
      -- bus off
      status0 ||| CO_CAN_ERRTX_BUS_OFF
    else
      -- recalculate CANerrorStatus, first clear some flags
      let s1 := status0 &&& (0xFFFF ^^^ (CO_CAN_ERRTX_BUS_OFF ||| CO_CAN_ERRRX_WARNING
                  ||| CO_CAN_ERRRX_PASSIVE ||| CO_CAN_ERRTX_WARNING ||| CO_CAN_ERRTX_PASSIVE))
      -- rx bus warning or passive
      let s2 :=
        if rx ≥ 128 then s1 ||| (CO_CAN_ERRRX_WARNING ||| CO_CAN_ERRRX_PASSIVE)
        else if rx ≥ 96 then s1 ||| CO_CAN_ERRRX_WARNING
        else s1
      -- tx bus warning or passive
      let s3 :=
        if tx ≥ 128 then s2 ||| (CO_CAN_ERRTX_WARNING ||| CO_CAN_ERRTX_PASSIVE)
        else if rx ≥ 96 then s2 ||| CO_CAN_ERRTX_WARNING
        else s2
      -- if not tx passive clear also overflow
      if s3 &&& CO_CAN_ERRTX_PASSIVE = 0 then s3 &&& (0xFFFF ^^^ CO_CAN_ERRTX_OVERFLOW)
      else s3
  if ovf ≠ 0 then status1 ||| CO_CAN_ERRRX_OVERFLOW else status1

/-- `CO_CANmodule_process`. `info` is what `twai_get_status_info` delivers:
`none` when it does not return `ESP_OK`. -/
def CO_CANmodule_process (CANmodule : CO_CANmodule_t) (info : Option twai_status_info_t) :
    CO_CANmodule_t :=
  match info with
  | none => CANmodule
  | some statusInfo =>
      let err := errValue statusInfo
      if CANmodule.errOld ≠ err then
        { CANmodule with
            errOld := err
            CANerrorStatus :=
              processStatus CANmodule.CANerrorStatus (txErrors statusInfo)
                (rxErrors statusInfo) (overflow statusInfo) }
      else CANmodule

/-! ## Notions used to state the properties -/

/-- The test `(status & mask) != 0` of a bit of `CANerrorStatus`. -/
def hasBit (status mask : Nat) : Bool := (status &&& mask) != 0

/-- The indices of the slots whose `bufferFull` is set among the first `n` slots
of a transmit array, in ascending order, `i` being the index of the head. -/
def fullFrom : List CO_CANtx_t → Nat → Nat → List Nat
  | [], _, _ => []
  | _ :: _, 0, _ => []
  | b :: rest, n + 1, i =>
      if b.bufferFull then i :: fullFrom rest n (i + 1) else fullFrom rest n (i + 1)

/-- The indices of the transmit slots of a module whose `bufferFull` is set, in
ascending order. -/
def fullSlots (m : CO_CANmodule_t) : List Nat := fullFrom m.txArray m.txSize 0

/-- The number of transmit slots of a module whose `bufferFull` is set. -/
def fullCount (m : CO_CANmodule_t) : Nat :=
  (m.txArray.take m.txSize).countP (fun b => b.bufferFull)

/-- The filter test of `CO_rxTask`: `((rcvMsgIdent ^ buffer->ident) & buffer->mask) == 0U`. -/
def rxMatches (rcvMsgIdent : Nat) (b : CO_CANrx_t) : Prop :=
  (rcvMsgIdent ^^^ b.ident) &&& b.mask = 0

instance (rcvMsgIdent : Nat) (b : CO_CANrx_t) : Decidable (rxMatches rcvMsgIdent b) :=
  inferInstanceAs (Decidable ((rcvMsgIdent ^^^ b.ident) &&& b.mask = 0))

/-- A caller that submits the buffers of a list one after the other with
`CO_CANsend`: the module afterwards and the returned codes, or `none` when one
of the indices is not a buffer. -/
def sendAll : CO_CANmodule_t → List Nat → Option (CO_CANmodule_t × List CO_ReturnError_t)
  | m, [] => some (m, [])
  | m, i :: rest =>
      match CO_CANsend m i with
      | none => none
      | some (m1, e) =>
          match sendAll m1 rest with
          | none => none
          | some (m2, es) => some (m2, e :: es)

/-- The module states reachable from a successful `CO_CANmodule_init` (arrays of
the announced sizes, sizes within `uint16_t`) by calls of `CO_CANtxBufferInit`,
`CO_CANsend` (on a buffer obtained from `CO_CANtxBufferInit`, that is, with an
index below `txSize`), `CO_CANclearPendingSyncPDOs`, and wakes of `CO_txTask`
with any outcomes of the controller send attempts. -/
inductive Reachable : CO_CANmodule_t → Prop
  | init (baudrate_config : List Nat) (env : InitEnv) (drv drv1 : DriverState)
      (old m : CO_CANmodule_t) (CANptr : Option Nat) (rx : List CO_CANrx_t)
      (tx : List CO_CANtx_t) (CANbitRate : Nat) :
      rx.length < 65536 → tx.length < 65536 →
      CO_CANmodule_init baudrate_config env drv (some old) CANptr (some rx) rx.length
          (some tx) tx.length CANbitRate
        = { ret := some CO_ERROR_NO, module := some m, driver := drv1 } →
      Reachable m
  | txBufferInit (m m1 : CO_CANmodule_t) (index ident : Nat) (rtr : Bool)
      (noOfBytes : Nat) (syncFlag : Bool) :
      Reachable m →
      (CO_CANtxBufferInit (some m) index ident rtr noOfBytes syncFlag).1 = some m1 →
      Reachable m1
  | send (m m1 : CO_CANmodule_t) (buffer : Nat) (err : CO_ReturnError_t) :
      Reachable m → buffer < m.txSize → CO_CANsend m buffer = some (m1, err) →
      Reachable m1
  | clearPendingSyncPDOs (m : CO_CANmodule_t) :
      Reachable m → Reachable (CO_CANclearPendingSyncPDOs m)
  | txTask (m m1 : CO_CANmodule_t) (twai : Nat → Bool) (fuel : Nat)
      (sent : List (Nat × Bool)) :
      Reachable m → CO_txTask twai fuel m = some (m1, sent) → Reachable m1

/-! ### Concrete inputs -/

/-- A transmit slot as the application allocates it: zero-filled. -/
def zeroTx : CO_CANtx_t :=
  { ident := 0, DLC := 0, data := [0, 0, 0, 0, 0, 0, 0, 0], bufferFull := false
    syncFlag := false }

/-- A receive slot as the application allocates it: zero-filled. -/
def zeroRx : CO_CANrx_t := { ident := 0, mask := 0, object := none, CANrx_callback := none }

/-- A zero-filled module object. -/
def zeroModule : CO_CANmodule_t :=
  { CANptr := none, rxArray := [], rxSize := 0, txArray := [], txSize := 0
    CANerrorStatus := 0, CANnormal := false, useCANrxFilters := false
    bufferInhibitFlag := false, firstCANtxMessage := false, CANtxCount := 0, errOld := 0 }

/-- The driver before the first initialisation. -/
def coldDriver : DriverState :=
  { bInstalled := false, xCoTxTaskHandle := none, xCoRxTaskHandle := none
    twaiInstalled := false, twaiStarted := false }

/-- A platform on which every call of `CO_CANmodule_init` succeeds. -/
def goodEnv : InitEnv :=
  { installOk := true, startOk := true, txTaskHandle := some 1, rxTaskHandle := some 2 }

/-- The module that `CO_CANmodule_init` sets up for one receive slot and `n`
transmit slots. -/
def freshModule (n : Nat) : CO_CANmodule_t :=
  { CANptr := none
    rxArray := [{ ident := 0, mask := 0xFFFF, object := none, CANrx_callback := none }]
    rxSize := 1
    txArray := List.replicate n zeroTx
    txSize := n
    CANerrorStatus := 0, CANnormal := false, useCANrxFilters := false
    bufferInhibitFlag := false, firstCANtxMessage := true, CANtxCount := 0, errOld := 0 }

/-- A controller that accepts every frame. -/
def twaiOk : Nat → Bool := fun _ => true

/-- A controller that refuses every frame. -/
def twaiFail : Nat → Bool := fun _ => false

/-- A controller that refuses the first frame of a wake and accepts the rest. -/
def twaiFailFirst : Nat → Bool := fun k => k != 0

/-- The module of one transmit slot after `CO_CANsend` on slot 0: the slot is
full and counted. -/
def pendingModule : CO_CANmodule_t :=
  { freshModule 1 with txArray := [{ zeroTx with bufferFull := true }], CANtxCount := 1 }

/-- The module `pendingModule` after a wake of `CO_txTask` in which the
controller refused the frame: slot 0 is still full and `CANtxCount` is 0. -/
def stuckModule : CO_CANmodule_t :=
  { pendingModule with firstCANtxMessage := false, CANtxCount := 0 }

/-- A module with three registered receive slots: slot 0 accepts identifier
0x181 only, slot 1 every identifier 0x200 to 0x2FF, slot 2 identifier 0x281
only. -/
def rxExample : CO_CANmodule_t :=
  { freshModule 0 with
      rxArray :=
        [{ ident := 0x181, mask := 0x0FFF, object := some 100, CANrx_callback := some 10 },
         { ident := 0x200, mask := 0x0F00, object := some 200, CANrx_callback := some 20 },
         { ident := 0x281, mask := 0x0FFF, object := some 300, CANrx_callback := some 30 }]
      rxSize := 3 }

/-- The number of transmit slots of a module that are full and marked
`syncFlag`. -/
def syncFullCount (m : CO_CANmodule_t) : Nat :=
  (m.txArray.take m.txSize).countP (fun b => b.bufferFull && b.syncFlag)

/-- The slot that `CO_CANtxBufferInit` configures from a zero-filled one for
identifier 0x181, no RTR, 8 bytes, `syncFlag` set. -/
def syncTx : CO_CANtx_t := { zeroTx with ident := 0x181, DLC := 8, syncFlag := true }

/-- The module of one transmit slot after `CO_CANtxBufferInit` made slot 0 a
synchronous one. -/
def syncModule : CO_CANmodule_t := { freshModule 1 with txArray := [syncTx] }

/-- The module `syncModule` after `CO_CANsend` on slot 0. -/
def syncPendingModule : CO_CANmodule_t :=
  { syncModule with txArray := [{ syncTx with bufferFull := true }], CANtxCount := 1 }

/-- The module `syncPendingModule` after a wake of `CO_txTask` in which the
controller accepted the frame: no slot is full, `CANtxCount` is 0 and
`bufferInhibitFlag` is set. -/
def syncSentModule : CO_CANmodule_t :=
  { syncModule with firstCANtxMessage := false, bufferInhibitFlag := true }

/-- The module `syncPendingModule` after a wake of `CO_txTask` in which the
controller refused the frame: slot 0 is still full, `CANtxCount` is 0. -/
def syncStuckModule : CO_CANmodule_t :=
  { syncPendingModule with
      firstCANtxMessage := false, bufferInhibitFlag := true, CANtxCount := 0 }

/-- A module with three receive slots as `CO_CANmodule_init` leaves them. -/
def rxFresh : CO_CANmodule_t :=
  { freshModule 0 with
      rxArray := List.replicate 3
        { ident := 0, mask := 0xFFFF, object := none, CANrx_callback := none }
      rxSize := 3 }

/-- The module of one transmit slot after two calls of `CO_CANsend` on slot 0
with no wake in between: one slot is full and `CANtxCount` is 2. -/
def overcountedModule : CO_CANmodule_t := { pendingModule with CANtxCount := 2 }

/-- The module `overcountedModule` after the first pass of the drain loop of
`CO_txTask`, the controller accepting the frame: no slot is full and
`CANtxCount` is 1. -/
def drainedModule : CO_CANmodule_t :=
  { freshModule 1 with firstCANtxMessage := false, CANtxCount := 1 }

/-! ## Properties -/

/-! ### Bits of the status word -/

theorem and_two_pow_ne_zero_iff (s k : Nat) : s &&& 2 ^ k ≠ 0 ↔ s.testBit k = true := by
  constructor
  · intro h
    obtain ⟨i, hi⟩ := Nat.ne_zero_implies_bit_true h
    rw [Nat.testBit_and, Nat.testBit_two_pow] at hi
    simp only [Bool.and_eq_true, decide_eq_true_eq] at hi
    obtain ⟨h1, h2⟩ := hi
    rw [h2]; exact h1
  · intro h hz
    have hk : (s &&& 2 ^ k).testBit k = true := by
      rw [Nat.testBit_and, Nat.testBit_two_pow_self, h]; rfl
    rw [hz] at hk
    simp at hk

theorem hasBit_two_pow (s k : Nat) : hasBit s (2 ^ k) = s.testBit k := by
  unfold hasBit
  by_cases h : s.testBit k = true
  · rw [h]
    have := (and_two_pow_ne_zero_iff s k).mpr h
    simpa using this
  · have h0 : s &&& 2 ^ k = 0 := by
      by_contra hne
      exact h ((and_two_pow_ne_zero_iff s k).mp hne)
    simp [h0, h]

theorem hasBit_TX_WARNING (s : Nat) : hasBit s CO_CAN_ERRTX_WARNING = s.testBit 0 :=
  hasBit_two_pow s 0

theorem hasBit_TX_PASSIVE (s : Nat) : hasBit s CO_CAN_ERRTX_PASSIVE = s.testBit 1 :=
  hasBit_two_pow s 1

theorem hasBit_BUS_OFF (s : Nat) : hasBit s CO_CAN_ERRTX_BUS_OFF = s.testBit 2 :=
  hasBit_two_pow s 2

theorem hasBit_TX_OVERFLOW (s : Nat) : hasBit s CO_CAN_ERRTX_OVERFLOW = s.testBit 3 :=
  hasBit_two_pow s 3

theorem hasBit_RX_WARNING (s : Nat) : hasBit s CO_CAN_ERRRX_WARNING = s.testBit 8 :=
  hasBit_two_pow s 8

theorem hasBit_RX_PASSIVE (s : Nat) : hasBit s CO_CAN_ERRRX_PASSIVE = s.testBit 9 :=
  hasBit_two_pow s 9

/-! ### Bus health (`CO_CANmodule_process`) -/

theorem process_changed (m : CO_CANmodule_t) (si : twai_status_info_t)
    (hchg : m.errOld ≠ errValue si) :
    (CO_CANmodule_process m (some si)).CANerrorStatus
      = processStatus m.CANerrorStatus (txErrors si) (rxErrors si) (overflow si) := by
  simp [CO_CANmodule_process, hchg]

theorem processStatus_busOff (s tx rx ovf : Nat) (htx : 256 ≤ tx) :
    processStatus s tx rx ovf
      = if ovf ≠ 0 then (s ||| CO_CAN_ERRTX_BUS_OFF) ||| CO_CAN_ERRRX_OVERFLOW
        else s ||| CO_CAN_ERRTX_BUS_OFF := by
  unfold processStatus
  simp [htx]

theorem processStatus_rx_warning (s tx rx ovf : Nat) (htx : tx < 256) :
    (processStatus s tx rx ovf).testBit 8 = decide (96 ≤ rx) := by
  have h256 : ¬ 256 ≤ tx := by omega
  unfold processStatus CO_CAN_ERRTX_BUS_OFF CO_CAN_ERRRX_WARNING CO_CAN_ERRRX_PASSIVE
    CO_CAN_ERRTX_WARNING CO_CAN_ERRTX_PASSIVE CO_CAN_ERRTX_OVERFLOW CO_CAN_ERRRX_OVERFLOW
  simp only [ge_iff_le, h256, if_false]
  by_cases h128 : 128 ≤ rx
  · have h96 : 96 ≤ rx := by omega
    split_ifs <;> simp +decide [h96]
  · by_cases h96 : 96 ≤ rx
    · split_ifs <;> simp +decide [h96]
    · split_ifs <;> simp +decide [h96]

theorem processStatus_rx_passive (s tx rx ovf : Nat) (htx : tx < 256) :
    (processStatus s tx rx ovf).testBit 9 = decide (128 ≤ rx) := by
  have h256 : ¬ 256 ≤ tx := by omega
  unfold processStatus CO_CAN_ERRTX_BUS_OFF CO_CAN_ERRRX_WARNING CO_CAN_ERRRX_PASSIVE
    CO_CAN_ERRTX_WARNING CO_CAN_ERRTX_PASSIVE CO_CAN_ERRTX_OVERFLOW CO_CAN_ERRRX_OVERFLOW
  simp only [ge_iff_le, h256, if_false]
  by_cases h128 : 128 ≤ rx
  · split_ifs <;> simp +decide [h128]
  · split_ifs <;> simp +decide [h128]

/-- C7, counterexample. A module fresh from `CO_CANmodule_init` samples transmit
and receive error counts of 130 (both warning and both passive bits get set) and
then a transmit error count of 256: the counters changed, the bus-off bit is
set, and the receive-warning, receive-passive, transmit-warning and
transmit-passive bits are all still set. -/
theorem process_busOff_keeps_warning_passive :
    (CO_CANmodule_process (freshModule 1) (some ⟨130, 130, 0⟩)).errOld ≠ errValue ⟨256, 130, 0⟩
    ∧ 256 ≤ txErrors ⟨256, 130, 0⟩
    ∧ (CO_CANmodule_process (CO_CANmodule_process (freshModule 1) (some ⟨130, 130, 0⟩))
        (some ⟨256, 130, 0⟩)).CANerrorStatus = 0x0307
    ∧ hasBit 0x0307 CO_CAN_ERRTX_BUS_OFF = true
    ∧ hasBit 0x0307 CO_CAN_ERRRX_WARNING = true
    ∧ hasBit 0x0307 CO_CAN_ERRRX_PASSIVE = true
    ∧ hasBit 0x0307 CO_CAN_ERRTX_WARNING = true
    ∧ hasBit 0x0307 CO_CAN_ERRTX_PASSIVE = true := by
  decide

/-- C7, amended. For every prior `CANerrorStatus` and every receive-error and
overrun counter value, a `CO_CANmodule_process` sample whose packed counter value
differs from `errOld` and whose transmit error count is at least 256 yields a
status with the bus-off bit set, in which the receive-warning, receive-passive,
transmit-warning and transmit-passive bits each have the value they had in the
prior status. -/
theorem process_busOff_sets_busOff_only (m : CO_CANmodule_t) (si : twai_status_info_t)
    (hchg : m.errOld ≠ errValue si) (htx : 256 ≤ txErrors si) :
    hasBit (CO_CANmodule_process m (some si)).CANerrorStatus CO_CAN_ERRTX_BUS_OFF = true
    ∧ hasBit (CO_CANmodule_process m (some si)).CANerrorStatus CO_CAN_ERRRX_WARNING
        = hasBit m.CANerrorStatus CO_CAN_ERRRX_WARNING
    ∧ hasBit (CO_CANmodule_process m (some si)).CANerrorStatus CO_CAN_ERRRX_PASSIVE
        = hasBit m.CANerrorStatus CO_CAN_ERRRX_PASSIVE
    ∧ hasBit (CO_CANmodule_process m (some si)).CANerrorStatus CO_CAN_ERRTX_WARNING
        = hasBit m.CANerrorStatus CO_CAN_ERRTX_WARNING
    ∧ hasBit (CO_CANmodule_process m (some si)).CANerrorStatus CO_CAN_ERRTX_PASSIVE
        = hasBit m.CANerrorStatus CO_CAN_ERRTX_PASSIVE := by
  rw [process_changed m si hchg, processStatus_busOff _ _ _ _ htx]
  simp only [hasBit_BUS_OFF, hasBit_RX_WARNING, hasBit_RX_PASSIVE, hasBit_TX_WARNING,
    hasBit_TX_PASSIVE]
  unfold CO_CAN_ERRTX_BUS_OFF CO_CAN_ERRRX_OVERFLOW
  split_ifs <;> simp only [Nat.testBit_or] <;> simp [Nat.testBit]

/-- C7, witness of the amended statement: a fresh module sampling 300 transmit
errors. -/
theorem process_busOff_sets_busOff_only_witness :
    hasBit (CO_CANmodule_process (freshModule 1) (some ⟨300, 100, 0⟩)).CANerrorStatus
        CO_CAN_ERRTX_BUS_OFF = true
    ∧ hasBit (CO_CANmodule_process (freshModule 1) (some ⟨300, 100, 0⟩)).CANerrorStatus
        CO_CAN_ERRRX_WARNING = hasBit (freshModule 1).CANerrorStatus CO_CAN_ERRRX_WARNING
    ∧ hasBit (CO_CANmodule_process (freshModule 1) (some ⟨300, 100, 0⟩)).CANerrorStatus
        CO_CAN_ERRRX_PASSIVE = hasBit (freshModule 1).CANerrorStatus CO_CAN_ERRRX_PASSIVE
    ∧ hasBit (CO_CANmodule_process (freshModule 1) (some ⟨300, 100, 0⟩)).CANerrorStatus
        CO_CAN_ERRTX_WARNING = hasBit (freshModule 1).CANerrorStatus CO_CAN_ERRTX_WARNING
    ∧ hasBit (CO_CANmodule_process (freshModule 1) (some ⟨300, 100, 0⟩)).CANerrorStatus
        CO_CAN_ERRTX_PASSIVE = hasBit (freshModule 1).CANerrorStatus CO_CAN_ERRTX_PASSIVE :=
  process_busOff_sets_busOff_only (freshModule 1) ⟨300, 100, 0⟩ (by decide) (by decide)

/-- C8, the code at the failing inputs. On a module fresh from
`CO_CANmodule_init`, a sample with 100 transmit errors and no receive errors
changes the counters and leaves the transmit-warning bit clear although the
transmit error count is at least 96; a sample with no transmit errors and 100
receive errors sets the transmit-warning bit although the transmit error count
is below 96. -/
theorem process_txWarning_tests_rxErrors :
    (freshModule 1).errOld ≠ errValue ⟨100, 0, 0⟩
    ∧ txErrors ⟨100, 0, 0⟩ < 256 ∧ 96 ≤ txErrors ⟨100, 0, 0⟩
    ∧ hasBit (CO_CANmodule_process (freshModule 1) (some ⟨100, 0, 0⟩)).CANerrorStatus
        CO_CAN_ERRTX_WARNING = false
    ∧ (freshModule 1).errOld ≠ errValue ⟨0, 100, 0⟩
    ∧ txErrors ⟨0, 100, 0⟩ < 96
    ∧ hasBit (CO_CANmodule_process (freshModule 1) (some ⟨0, 100, 0⟩)).CANerrorStatus
        CO_CAN_ERRTX_WARNING = true := by
  decide

/-- C9. For every `CO_CANmodule_process` sample whose packed counter value
differs from `errOld` and whose transmit error count is below 256, the resulting
status has the receive-warning bit set exactly when the receive error count is
at least 96 and the receive-passive bit set exactly when it is at least 128,
whatever the prior status was. The counts are the 16-bit values `txErrors` and
`rxErrors` that the routine samples. -/
theorem process_rx_warning_passive (m : CO_CANmodule_t) (si : twai_status_info_t)
    (hchg : m.errOld ≠ errValue si) (htx : txErrors si < 256) :
    (hasBit (CO_CANmodule_process m (some si)).CANerrorStatus CO_CAN_ERRRX_WARNING = true
        ↔ 96 ≤ rxErrors si)
    ∧ (hasBit (CO_CANmodule_process m (some si)).CANerrorStatus CO_CAN_ERRRX_PASSIVE = true
        ↔ 128 ≤ rxErrors si) := by
  rw [process_changed m si hchg, hasBit_RX_WARNING, hasBit_RX_PASSIVE,
    processStatus_rx_warning _ _ _ _ htx, processStatus_rx_passive _ _ _ _ htx]
  simp

/-- C9, witness: prior status with the receive-passive bit set, 7 transmit and
100 receive errors. -/
theorem process_rx_warning_passive_witness :
    (hasBit (CO_CANmodule_process { freshModule 1 with CANerrorStatus := 0x0200 }
        (some ⟨7, 100, 0⟩)).CANerrorStatus CO_CAN_ERRRX_WARNING = true
        ↔ 96 ≤ rxErrors ⟨7, 100, 0⟩)
    ∧ (hasBit (CO_CANmodule_process { freshModule 1 with CANerrorStatus := 0x0200 }
        (some ⟨7, 100, 0⟩)).CANerrorStatus CO_CAN_ERRRX_PASSIVE = true
        ↔ 128 ≤ rxErrors ⟨7, 100, 0⟩) :=
  process_rx_warning_passive { freshModule 1 with CANerrorStatus := 0x0200 } ⟨7, 100, 0⟩
    (by decide) (by decide)

/-- C10. For every module state and every result of reading the hardware
counters, calling `CO_CANmodule_process` twice in a row with the same reading
leaves the module state after the second call identical to the state after the
first call. -/
theorem process_twice (m : CO_CANmodule_t) (info : Option twai_status_info_t) :
    CO_CANmodule_process (CO_CANmodule_process m info) info = CO_CANmodule_process m info := by
  cases info with
  | none => rfl
  | some si =>
      by_cases h : m.errOld = errValue si
      · simp [CO_CANmodule_process, h]
      · simp [CO_CANmodule_process, h]

/-! ### Transmit path (`CO_CANsend`, `CO_txTask`) -/

theorem CO_CANsend_full (m : CO_CANmodule_t) (buffer : Nat) (b : CO_CANtx_t)
    (hb : m.txArray[buffer]? = some b) (hfull : b.bufferFull = true) :
    CO_CANsend m buffer
      = some ({ m with
                  CANerrorStatus :=
                    if !m.firstCANtxMessage then m.CANerrorStatus ||| CO_CAN_ERRTX_OVERFLOW
                    else m.CANerrorStatus
                  txArray := m.txArray.set buffer { b with bufferFull := true }
                  CANtxCount := (m.CANtxCount + 1) % 65536 }, CO_ERROR_TX_OVERFLOW) := by
  simp [CO_CANsend, hb, hfull]

/-- C2, the code at the failing input. After `CO_CANmodule_init` with one
transmit slot and one `CO_CANsend` on slot 0, the slot is full and `CANtxCount`
is 1; a second `CO_CANsend` on the slot returns `CO_ERROR_TX_OVERFLOW` and
leaves `CANtxCount` at 2, with still one full slot. -/
theorem CO_CANsend_full_slot_increments_count :
    CO_CANsend (freshModule 1) 0 = some (pendingModule, CO_ERROR_NO)
    ∧ pendingModule.txArray[0]? = some { zeroTx with bufferFull := true }
    ∧ pendingModule.CANtxCount = 1
    ∧ CO_CANsend pendingModule 0
        = some ({ pendingModule with CANtxCount := 2 }, CO_ERROR_TX_OVERFLOW)
    ∧ fullCount { pendingModule with CANtxCount := 2 } = 1 := by
  decide

/-- C3. For every module state and every transmit slot that is already full,
`CO_CANsend` on the slot returns, and: while `firstCANtxMessage` is true it
leaves the `CO_CAN_ERRTX_OVERFLOW` bit of `CANerrorStatus` unchanged (the whole
status word is unchanged); once `firstCANtxMessage` is false it sets that
bit. -/
theorem CO_CANsend_full_overflow_bit (m : CO_CANmodule_t) (buffer : Nat) (b : CO_CANtx_t)
    (hb : m.txArray[buffer]? = some b) (hfull : b.bufferFull = true) :
    ∃ m1 err, CO_CANsend m buffer = some (m1, err)
      ∧ (m.firstCANtxMessage = true →
          m1.CANerrorStatus = m.CANerrorStatus
          ∧ hasBit m1.CANerrorStatus CO_CAN_ERRTX_OVERFLOW
              = hasBit m.CANerrorStatus CO_CAN_ERRTX_OVERFLOW)
      ∧ (m.firstCANtxMessage = false →
          hasBit m1.CANerrorStatus CO_CAN_ERRTX_OVERFLOW = true) := by
  refine ⟨_, _, CO_CANsend_full m buffer b hb hfull, ?_, ?_⟩
  · intro h
    simp [h]
  · intro h
    simp only [h, Bool.not_false, if_true, hasBit_TX_OVERFLOW]
    unfold CO_CAN_ERRTX_OVERFLOW
    simp only [Nat.testBit_or]
    simp [Nat.testBit]

/-- C3, witness: a full slot before the first wake (`pendingModule`) and after it
(`stuckModule`). -/
theorem CO_CANsend_full_overflow_bit_witness :
    (∃ m1 err, CO_CANsend pendingModule 0 = some (m1, err)
      ∧ (pendingModule.firstCANtxMessage = true →
          m1.CANerrorStatus = pendingModule.CANerrorStatus
          ∧ hasBit m1.CANerrorStatus CO_CAN_ERRTX_OVERFLOW
              = hasBit pendingModule.CANerrorStatus CO_CAN_ERRTX_OVERFLOW)
      ∧ (pendingModule.firstCANtxMessage = false →
          hasBit m1.CANerrorStatus CO_CAN_ERRTX_OVERFLOW = true))
    ∧ (∃ m1 err, CO_CANsend stuckModule 0 = some (m1, err)
      ∧ (stuckModule.firstCANtxMessage = true →
          m1.CANerrorStatus = stuckModule.CANerrorStatus
          ∧ hasBit m1.CANerrorStatus CO_CAN_ERRTX_OVERFLOW
              = hasBit stuckModule.CANerrorStatus CO_CAN_ERRTX_OVERFLOW)
      ∧ (stuckModule.firstCANtxMessage = false →
          hasBit m1.CANerrorStatus CO_CAN_ERRTX_OVERFLOW = true)) :=
  ⟨CO_CANsend_full_overflow_bit pendingModule 0 { zeroTx with bufferFull := true }
      (by decide) (by decide),
   CO_CANsend_full_overflow_bit stuckModule 0 { zeroTx with bufferFull := true }
      (by decide) (by decide)⟩

/-- C5, the code at the failing input. With slot 0 full and `CANtxCount` 1, a
wake of `CO_txTask` in which the controller refuses the frame makes one send
attempt and releases the lock with `CANtxCount` 0 and slot 0 still full; after
the next `CO_CANsend` on the slot (which returns `CO_ERROR_TX_OVERFLOW`) the
next wake hands slot 0 to the controller again. -/
theorem CO_txTask_failed_send_keeps_slot_full :
    CO_txTask twaiFail 2 pendingModule = some (stuckModule, [(0, false)])
    ∧ stuckModule.txArray[0]? = some { zeroTx with bufferFull := true }
    ∧ stuckModule.CANtxCount = 0
    ∧ (CO_CANsend stuckModule 0).map Prod.snd = some CO_ERROR_TX_OVERFLOW
    ∧ ((CO_CANsend stuckModule 0).bind (fun r => CO_txTask twaiOk 2 r.1)).map Prod.snd
        = some [(0, true)] := by
  decide

/-- C1, the code at the failing input. The module state `stuckModule` is
reachable from a successful `CO_CANmodule_init` by one `CO_CANsend` and one wake
of `CO_txTask` whose controller send fails; in it `CANtxCount` is 0 while one
transmit slot has `bufferFull` set. -/
theorem reachable_count_differs_from_full_slots :
    Reachable stuckModule ∧ stuckModule.CANtxCount = 0 ∧ fullCount stuckModule = 1 := by
  refine ⟨?_, by decide, by decide⟩
  have h0 : Reachable (freshModule 1) :=
    Reachable.init [125, 250, 500] goodEnv coldDriver
      { coldDriver with bInstalled := true, twaiInstalled := true, twaiStarted := true
                        xCoTxTaskHandle := some 1, xCoRxTaskHandle := some 2 }
      zeroModule (freshModule 1) none [zeroRx] [zeroTx] 125 (by decide) (by decide) (by decide)
  have h1 : Reachable pendingModule :=
    Reachable.send (freshModule 1) pendingModule 0 CO_ERROR_NO h0 (by decide) (by decide)
  exact Reachable.txTask pendingModule stuckModule twaiFail 2 [(0, false)] h1 (by decide)

/-- C4, the code at the failing input. After `CO_CANmodule_init` with three
transmit slots, slots 2, 0, 1 are submitted in that order, each `CO_CANsend`
returning `CO_ERROR_NO`. In a wake of `CO_txTask` whose first send attempt
fails, slot 0 is handed to the controller twice and slot 1 once; slot 2 is never
handed over, and the lock is released with `CANtxCount` 0 and slot 2 full. -/
theorem CO_txTask_failed_send_repeats_slot :
    (sendAll (freshModule 3) [2, 0, 1]).map Prod.snd
      = some [CO_ERROR_NO, CO_ERROR_NO, CO_ERROR_NO]
    ∧ ((sendAll (freshModule 3) [2, 0, 1]).bind
        (fun r => CO_txTask twaiFailFirst 4 r.1)).map Prod.snd
      = some [(0, false), (0, true), (1, true)]
    ∧ ((sendAll (freshModule 3) [2, 0, 1]).bind
        (fun r => CO_txTask twaiFailFirst 4 r.1)).map (fun r => (r.1.CANtxCount, fullSlots r.1))
      = some (0, [2]) := by
  decide

/-! ### Receive matching (`CO_rxTask`) -/

theorem rxSearch_first (id : Nat) :
    ∀ (l : List CO_CANrx_t) (n off i : Nat) (b : CO_CANrx_t),
      i < n → l[i]? = some b → rxMatches id b →
      (∀ k c, k < i → l[k]? = some c → ¬ rxMatches id c) →
      rxSearch id l n off = some (off + i, b) := by
  intro l
  induction l with
  | nil => intro n off i b _ hb; simp at hb
  | cons a rest ih =>
      intro n off i b hi hb hm hlow
      cases n with
      | zero => omega
      | succ n =>
          cases i with
          | zero =>
              simp only [List.getElem?_cons_zero, Option.some.injEq] at hb
              subst hb
              have hm1 : (id ^^^ a.ident) &&& a.mask = 0 := hm
              simp [rxSearch, hm1]
          | succ i =>
              have ha : ¬ rxMatches id a := hlow 0 a (by omega) (by simp)
              have ha1 : ¬ ((id ^^^ a.ident) &&& a.mask = 0) := ha
              simp only [List.getElem?_cons_succ] at hb
              have hrec := ih n (off + 1) i b (by omega) hb hm
                (fun k c hk hc => hlow (k + 1) c (by omega) (by simpa using hc))
              simp only [rxSearch, ha1, if_false]
              rw [hrec]
              congr 2
              omega

theorem rxSearch_none_of_no_match (id : Nat) :
    ∀ (l : List CO_CANrx_t) (n off : Nat),
      (∀ k c, k < n → l[k]? = some c → ¬ rxMatches id c) →
      rxSearch id l n off = none := by
  intro l
  induction l with
  | nil => intro n off _; simp [rxSearch]
  | cons a rest ih =>
      intro n off hno
      cases n with
      | zero => simp [rxSearch]
      | succ n =>
          have ha : ¬ rxMatches id a := hno 0 a (by omega) (by simp)
          have ha1 : ¬ ((id ^^^ a.ident) &&& a.mask = 0) := ha
          simp only [rxSearch, ha1, if_false]
          exact ih n (off + 1) (fun k c hk hc => hno (k + 1) c (by omega) (by simpa using hc))

theorem rxSearch_some (id : Nat) :
    ∀ (l : List CO_CANrx_t) (n off j : Nat) (b : CO_CANrx_t),
      rxSearch id l n off = some (j, b) →
      off ≤ j ∧ j - off < n ∧ l[j - off]? = some b ∧ rxMatches id b
        ∧ ∀ k c, k < j - off → l[k]? = some c → ¬ rxMatches id c := by
  intro l
  induction l with
  | nil => intro n off j b h; simp [rxSearch] at h
  | cons a rest ih =>
      intro n off j b h
      cases n with
      | zero => simp [rxSearch] at h
      | succ n =>
          by_cases ha : (id ^^^ a.ident) &&& a.mask = 0
          · simp only [rxSearch, ha, if_true, Option.some.injEq, Prod.mk.injEq] at h
            obtain ⟨h1, h2⟩ := h
            subst h1 h2
            refine ⟨le_refl _, by omega, by simp, ha, ?_⟩
            intro k c hk
            omega
          · simp only [rxSearch, ha, if_false] at h
            obtain ⟨h1, h2, h3, h4, h5⟩ := ih n (off + 1) j b h
            have hj : j - off = (j - (off + 1)) + 1 := by omega
            refine ⟨by omega, by omega, ?_, h4, ?_⟩
            · rw [hj, List.getElem?_cons_succ]; exact h3
            · intro k c hk hc
              cases k with
              | zero =>
                  simp only [List.getElem?_cons_zero, Option.some.injEq] at hc
                  subst hc
                  exact ha
              | succ k =>
                  simp only [List.getElem?_cons_succ] at hc
                  exact h5 k c (by omega) hc

/-- C6. For every receive filter table and every inbound identifier: when slot
`i` is the lowest-indexed slot (below `rxSize`) that satisfies
`((identifier XOR slot.ident) AND slot.mask) == 0`, the call that `CO_rxTask`
makes is the callback registered in slot `i`, with the owner object of slot `i`
(no call when that slot has no callback registered); every call that
`CO_rxTask` makes is the callback of such a lowest-indexed matching slot, so no
other slot is served; and when no slot satisfies the test, no callback is
called. -/
theorem CO_rxTask_first_match (m : CO_CANmodule_t) (id : Nat) :
    (∀ i b, i < m.rxSize → m.rxArray[i]? = some b → rxMatches id b →
        (∀ k c, k < i → m.rxArray[k]? = some c → ¬ rxMatches id c) →
        CO_rxTask m id
          = b.CANrx_callback.map (fun cb => { slot := i, callback := cb, object := b.object }))
    ∧ (∀ call, CO_rxTask m id = some call →
        ∃ b, call.slot < m.rxSize ∧ m.rxArray[call.slot]? = some b ∧ rxMatches id b
          ∧ (∀ k c, k < call.slot → m.rxArray[k]? = some c → ¬ rxMatches id c)
          ∧ b.CANrx_callback = some call.callback ∧ b.object = call.object)
    ∧ ((∀ i b, i < m.rxSize → m.rxArray[i]? = some b → ¬ rxMatches id b) →
        CO_rxTask m id = none) := by
  refine ⟨?_, ?_, ?_⟩
  · intro i b hi hb hm hlow
    have h := rxSearch_first id m.rxArray m.rxSize 0 i b hi hb hm hlow
    simp only [Nat.zero_add] at h
    unfold CO_rxTask
    rw [h]
    cases hcb : b.CANrx_callback <;> simp [hcb]
  · intro call hcall
    unfold CO_rxTask at hcall
    cases hs : rxSearch id m.rxArray m.rxSize 0 with
    | none => rw [hs] at hcall; simp at hcall
    | some r =>
        obtain ⟨j, b⟩ := r
        rw [hs] at hcall
        obtain ⟨_, h2, h3, h4, h5⟩ := rxSearch_some id m.rxArray m.rxSize 0 j b hs
        simp only [Nat.sub_zero] at h2 h3 h5
        cases hcb : b.CANrx_callback with
        | none => simp [hcb] at hcall
        | some cb =>
            simp only [hcb, Option.some.injEq] at hcall
            subst hcall
            exact ⟨b, h2, h3, h4, h5, hcb, rfl⟩
  · intro hno
    have h := rxSearch_none_of_no_match id m.rxArray m.rxSize 0
      (fun k c hk hc => hno k c hk hc)
    unfold CO_rxTask
    rw [h]

/-- C6, witness: slots 1 and 2 both match identifier 0x281 and only the callback
of slot 1 is called; no slot matches 0x555 and nothing is called. -/
theorem CO_rxTask_first_match_witness :
    CO_rxTask rxExample 0x281 = some { slot := 1, callback := 20, object := some 200 }
    ∧ CO_rxTask rxExample 0x555 = none := by
  constructor
  · have h := (CO_rxTask_first_match rxExample 0x281).1 1
      { ident := 0x200, mask := 0x0F00, object := some 200, CANrx_callback := some 20 }
      (by decide) (by decide) (by decide)
      (by
        intro k c hk hc
        have hk0 : k = 0 := by omega
        subst hk0
        have hc1 : c = { ident := 0x181, mask := 0x0FFF, object := some 100,
                         CANrx_callback := some 10 } := by
          simpa [rxExample] using hc.symm
        subst hc1
        decide)
    simpa using h
  · apply (CO_rxTask_first_match rxExample 0x555).2.2
    intro i b hi hb
    have hi3 : i < 3 := hi
    interval_cases i
    · have hb1 : b = { ident := 0x181, mask := 0x0FFF, object := some 100,
                       CANrx_callback := some 10 } := by
        simpa [rxExample] using hb.symm
      subst hb1
      decide
    · have hb1 : b = { ident := 0x200, mask := 0x0F00, object := some 200,
                       CANrx_callback := some 20 } := by
        simpa [rxExample] using hb.symm
      subst hb1
      decide
    · have hb1 : b = { ident := 0x281, mask := 0x0FFF, object := some 300,
                       CANrx_callback := some 30 } := by
        simpa [rxExample] using hb.symm
      subst hb1
      decide

/-! ### The drain loop of `CO_txTask` when the controller accepts every frame -/

theorem txScan_none_iff (l : List CO_CANtx_t) :
    ∀ (n i : Nat), txScan l n i = none ↔ fullFrom l n i = [] := by
  induction l with
  | nil => intro n i; simp [txScan, fullFrom]
  | cons a rest ih =>
      intro n i
      cases n with
      | zero => simp [txScan, fullFrom]
      | succ n =>
          by_cases ha : a.bufferFull = true
          · simp [txScan, fullFrom, ha]
          · simp [txScan, fullFrom, ha, ih n (i + 1)]

theorem txScan_some (l : List CO_CANtx_t) :
    ∀ (n i j : Nat) (b : CO_CANtx_t), txScan l n i = some (j, b) →
      i ≤ j ∧ l[j - i]? = some b ∧ b.bufferFull = true
        ∧ fullFrom l n i = j :: fullFrom (l.set (j - i) { b with bufferFull := false }) n i := by
  induction l with
  | nil => intro n i j b h; simp [txScan] at h
  | cons a rest ih =>
      intro n i j b h
      cases n with
      | zero => simp [txScan] at h
      | succ n =>
          by_cases ha : a.bufferFull = true
          · simp only [txScan, ha, if_true, Option.some.injEq, Prod.mk.injEq] at h
            obtain ⟨h1, h2⟩ := h
            subst h1 h2
            refine ⟨le_refl _, by simp, ha, ?_⟩
            simp [fullFrom, ha]
          · simp only [txScan, ha, if_false] at h
            obtain ⟨h1, h2, h3, h4⟩ := ih n (i + 1) j b h
            have hj : j - i = (j - (i + 1)) + 1 := by omega
            refine ⟨by omega, ?_, h3, ?_⟩
            · rw [hj, List.getElem?_cons_succ]; exact h2
            · rw [hj, List.set_cons_succ]
              simp only [fullFrom, ha, if_false]
              exact h4

theorem txTaskLoop_all_accepted (twai : Nat → Bool) (hok : ∀ k, twai k = true) :
    ∀ (c : Nat) (m : CO_CANmodule_t) (k : Nat) (sent : List (Nat × Bool)),
      (fullSlots m).length = c → m.CANtxCount = c → c < 65536 →
      ∃ m1, txTaskLoop twai (c + 1) k m sent
              = some (m1, sent ++ (fullSlots m).map (fun i => (i, true)))
            ∧ m1.CANtxCount = 0 ∧ fullSlots m1 = [] ∧ m1.txSize = m.txSize := by
  intro c
  induction c with
  | zero =>
      intro m k sent hlen hcnt _
      have hnil : fullSlots m = [] := List.length_eq_zero.mp hlen
      refine ⟨m, ?_, hcnt, hnil, rfl⟩
      simp [txTaskLoop, hcnt, hnil]
  | succ c ih =>
      intro m k sent hlen hcnt h16
      have hne : txScan m.txArray m.txSize 0 ≠ none := by
        intro hnone
        have hnil := (txScan_none_iff m.txArray m.txSize 0).mp hnone
        unfold fullSlots at hlen
        rw [hnil] at hlen
        simp at hlen
      cases hs : txScan m.txArray m.txSize 0 with
      | none => exact absurd hs hne
      | some r =>
          obtain ⟨j, b⟩ := r
          obtain ⟨_, _, _, hfull⟩ := txScan_some m.txArray m.txSize 0 j b hs
          simp only [Nat.sub_zero] at hfull
          have hpass : txTaskPass m (twai k)
              = ({ m with
                     txArray := m.txArray.set j { b with bufferFull := false }
                     CANtxCount := c
                     bufferInhibitFlag := b.syncFlag }, some j) := by
            have hc : (c + 1 + 65535) % 65536 = c := by omega
            simp [txTaskPass, hs, hok k, hcnt, hc]
          have hslots : fullSlots m
              = j :: fullSlots { m with
                     txArray := m.txArray.set j { b with bufferFull := false }
                     CANtxCount := c
                     bufferInhibitFlag := b.syncFlag } := hfull
          obtain ⟨m1, h1, h2, h3, h4⟩ := ih
            { m with
                txArray := m.txArray.set j { b with bufferFull := false }
                CANtxCount := c
                bufferInhibitFlag := b.syncFlag } (k + 1) (sent ++ [(j, twai k)])
            (by rw [hslots] at hlen; simpa using hlen) rfl (by omega)
          refine ⟨m1, ?_, h2, h3, h4⟩
          have hpos : m.CANtxCount > 0 := by omega
          rw [txTaskLoop]
          simp only [hpos, if_true, hpass]
          rw [h1, hslots, hok k]
          simp

theorem mem_fullFrom (l : List CO_CANtx_t) :
    ∀ (n i j : Nat), j ∈ fullFrom l n i ↔
      ∃ k b, j = i + k ∧ k < n ∧ l[k]? = some b ∧ b.bufferFull = true := by
  induction l with
  | nil => intro n i j; simp [fullFrom]
  | cons a rest ih =>
      intro n i j
      cases n with
      | zero => simp [fullFrom]
      | succ n =>
          constructor
          · intro h
            by_cases ha : a.bufferFull = true
            · simp only [fullFrom, ha, if_true, List.mem_cons] at h
              rcases h with h | h
              · exact ⟨0, a, by omega, by omega, by simp, ha⟩
              · obtain ⟨k, b, h1, h2, h3, h4⟩ := (ih n (i + 1) j).mp h
                exact ⟨k + 1, b, by omega, by omega, by simpa using h3, h4⟩
            · simp only [fullFrom, ha, if_false] at h
              obtain ⟨k, b, h1, h2, h3, h4⟩ := (ih n (i + 1) j).mp h
              exact ⟨k + 1, b, by omega, by omega, by simpa using h3, h4⟩
          · rintro ⟨k, b, h1, h2, h3, h4⟩
            cases k with
            | zero =>
                simp only [List.getElem?_cons_zero, Option.some.injEq] at h3
                subst h3
                simp [fullFrom, h4, h1]
            | succ k =>
                simp only [List.getElem?_cons_succ] at h3
                have hrec := (ih n (i + 1) j).mpr ⟨k, b, by omega, by omega, h3, h4⟩
                by_cases ha : a.bufferFull = true
                · simp [fullFrom, ha, hrec]
                · simp [fullFrom, ha, hrec]

theorem fullFrom_sorted (l : List CO_CANtx_t) :
    ∀ (n i : Nat), (fullFrom l n i).Sorted (· < ·) := by
  induction l with
  | nil => intro n i; simp [fullFrom]
  | cons a rest ih =>
      intro n i
      cases n with
      | zero => simp [fullFrom]
      | succ n =>
          by_cases ha : a.bufferFull = true
          · simp only [fullFrom, ha, if_true]
            refine List.sorted_cons.mpr ⟨?_, ih n (i + 1)⟩
            intro j hj
            obtain ⟨k, _, h1, _⟩ := (mem_fullFrom rest n (i + 1) j).mp hj
            omega
          · simp only [fullFrom, ha, if_false]
            exact ih n (i + 1)

theorem fullFrom_length_le (l : List CO_CANtx_t) :
    ∀ (n i : Nat), (fullFrom l n i).length ≤ n := by
  induction l with
  | nil => intro n i; simp [fullFrom]
  | cons a rest ih =>
      intro n i
      cases n with
      | zero => simp [fullFrom]
      | succ n =>
          have := ih n (i + 1)
          by_cases ha : a.bufferFull = true
          · simp only [fullFrom, ha, if_true, List.length_cons]; omega
          · have hf : a.bufferFull = false := by simpa using ha
            simp only [fullFrom, hf, Bool.false_eq_true, if_false]; omega

theorem mem_fullFrom_set_full (l : List CO_CANtx_t) (n k : Nat) (b : CO_CANtx_t)
    (hk : k < n) (hb : l[k]? = some b) (j : Nat) :
    j ∈ fullFrom (l.set k { b with bufferFull := true }) n 0 ↔ j = k ∨ j ∈ fullFrom l n 0 := by
  have hlen : k < l.length := by
    by_contra hge
    rw [List.getElem?_eq_none (by omega)] at hb
    simp at hb
  rw [mem_fullFrom, mem_fullFrom]
  constructor
  · rintro ⟨k1, b1, h1, h2, h3, h4⟩
    by_cases hkk : k = k1
    · left; omega
    · right
      rw [List.getElem?_set_ne hkk] at h3
      exact ⟨k1, b1, h1, h2, h3, h4⟩
  · rintro (h | ⟨k1, b1, h1, h2, h3, h4⟩)
    · refine ⟨k, { b with bufferFull := true }, by omega, hk, ?_, rfl⟩
      rw [List.getElem?_set, if_pos rfl, if_pos hlen]
    · by_cases hkk : k = k1
      · refine ⟨k, { b with bufferFull := true }, by omega, hk, ?_, rfl⟩
        rw [List.getElem?_set, if_pos rfl, if_pos hlen]
      · refine ⟨k1, b1, h1, h2, ?_, h4⟩
        rw [List.getElem?_set_ne hkk]
        exact h3

theorem CO_CANsend_free (m : CO_CANmodule_t) (buffer : Nat) (b : CO_CANtx_t)
    (hb : m.txArray[buffer]? = some b) (hfree : b.bufferFull = false) :
    CO_CANsend m buffer
      = some ({ m with
                  txArray := m.txArray.set buffer { b with bufferFull := true }
                  CANtxCount := (m.CANtxCount + 1) % 65536 }, CO_ERROR_NO) := by
  simp [CO_CANsend, hb, hfree]

theorem fullSlots_nodup (m : CO_CANmodule_t) : (fullSlots m).Nodup :=
  (fullFrom_sorted m.txArray m.txSize 0).nodup

theorem CO_CANsend_free_slot (m : CO_CANmodule_t) (i : Nat)
    (hsz : m.txSize = m.txArray.length) (h16 : m.txSize < 65536)
    (hc : m.CANtxCount = (fullSlots m).length) (hin : i < m.txSize)
    (hfree : i ∉ fullSlots m) :
    ∃ m1, CO_CANsend m i = some (m1, CO_ERROR_NO)
      ∧ m1.txSize = m.txSize ∧ m1.txSize = m1.txArray.length
      ∧ m1.CANtxCount = (fullSlots m1).length
      ∧ ∀ j, j ∈ fullSlots m1 ↔ j = i ∨ j ∈ fullSlots m := by
  have hi : i < m.txArray.length := by rw [← hsz]; exact hin
  have hb : m.txArray[i]? = some m.txArray[i] := List.getElem?_eq_getElem hi
  have hbfree : (m.txArray[i]).bufferFull = false := by
    by_contra hfull
    have hfull1 : (m.txArray[i]).bufferFull = true := by simpa using hfull
    exact hfree ((mem_fullFrom m.txArray m.txSize 0 i).mpr ⟨i, _, by omega, hin, hb, hfull1⟩)
  obtain ⟨m1, hm1⟩ : ∃ m1 : CO_CANmodule_t, m1 =
      { m with
          txArray := m.txArray.set i { m.txArray[i] with bufferFull := true }
          CANtxCount := (m.CANtxCount + 1) % 65536 } := ⟨_, rfl⟩
  have hsend : CO_CANsend m i = some (m1, CO_ERROR_NO) := by
    rw [hm1]; exact CO_CANsend_free m i _ hb hbfree
  have hsize : m1.txSize = m.txSize := by rw [hm1]
  have hsize1 : m1.txSize = m1.txArray.length := by rw [hm1]; simp [hsz]
  have hcnt : m1.CANtxCount = (m.CANtxCount + 1) % 65536 := by rw [hm1]
  have hmem : ∀ j, j ∈ fullSlots m1 ↔ j = i ∨ j ∈ fullSlots m := by
    rw [hm1]; exact mem_fullFrom_set_full m.txArray m.txSize i _ hin hb
  have hperm : (fullSlots m1).Perm (i :: fullSlots m) :=
    (List.perm_ext_iff_of_nodup (fullSlots_nodup m1)
      (List.nodup_cons.mpr ⟨hfree, fullSlots_nodup m⟩)).mpr
      (by intro j; rw [hmem]; simp)
  have hlen : (fullSlots m1).length = (fullSlots m).length + 1 := hperm.length_eq
  have hle : (fullSlots m1).length ≤ m1.txSize := fullFrom_length_le _ _ _
  refine ⟨m1, hsend, hsize, hsize1, ?_, hmem⟩
  rw [hcnt, hlen, hc]
  omega

theorem sendAll_free (idxs : List Nat) :
    ∀ (m : CO_CANmodule_t), m.txSize = m.txArray.length → m.txSize < 65536 →
      m.CANtxCount = (fullSlots m).length →
      idxs.Nodup → (∀ i ∈ idxs, i < m.txSize) → (∀ i ∈ idxs, i ∉ fullSlots m) →
      ∃ m1 errs, sendAll m idxs = some (m1, errs) ∧ (∀ e ∈ errs, e = CO_ERROR_NO)
        ∧ errs.length = idxs.length
        ∧ m1.txSize = m.txSize
        ∧ m1.CANtxCount = (fullSlots m1).length
        ∧ ∀ j, j ∈ fullSlots m1 ↔ j ∈ idxs ∨ j ∈ fullSlots m := by
  induction idxs with
  | nil =>
      intro m _ _ hc _ _ _
      exact ⟨m, [], rfl, by simp, rfl, rfl, hc, by simp⟩
  | cons i rest ih =>
      intro m hsz h16 hc hnd hlt hfree
      obtain ⟨ma, hsend, ha1, ha2, ha3, hmem⟩ :=
        CO_CANsend_free_slot m i hsz h16 hc (hlt i (by simp)) (hfree i (by simp))
      obtain ⟨m1, errs, h1, h2, h3, h4, h5, h6⟩ := ih ma ha2 (by omega) ha3
        (List.nodup_cons.mp hnd).2
        (fun j hj => by rw [ha1]; exact hlt j (by simp [hj]))
        (by
          intro j hj hjm
          rcases (hmem j).mp hjm with h | h
          · subst h
            exact (List.nodup_cons.mp hnd).1 hj
          · exact hfree j (by simp [hj]) h)
      refine ⟨m1, CO_ERROR_NO :: errs, ?_, ?_, by simp [h3], by omega, h5, ?_⟩
      · simp [sendAll, hsend, h1]
      · intro e he
        rcases List.mem_cons.mp he with h | h
        · exact h
        · exact h2 e h
      · intro j
        rw [h6 j, hmem j]
        simp only [List.mem_cons]
        tauto

/-- Ascending dispatch when the controller accepts every frame. From a module
with no full slot and `CANtxCount` 0 (as `CO_CANmodule_init` leaves it), for
every list of distinct transmit slots submitted with `CO_CANsend` in any order:
every submit returns `CO_ERROR_NO`, and one wake of `CO_txTask` in which every
`twai_transmit` returns `ESP_OK` ends, hands over exactly the submitted slots,
each once, in ascending slot-index order, and leaves no slot full and
`CANtxCount` 0. -/
theorem CO_txTask_ascending_when_accepted (m : CO_CANmodule_t) (idxs : List Nat)
    (twai : Nat → Bool) (hsz : m.txSize = m.txArray.length) (h16 : m.txSize < 65536)
    (hcount : m.CANtxCount = 0) (hfree : fullSlots m = [])
    (hnd : idxs.Nodup) (hlt : ∀ i ∈ idxs, i < m.txSize) (hok : ∀ k, twai k = true) :
    ∃ m1 errs m2 sent,
      sendAll m idxs = some (m1, errs) ∧ (∀ e ∈ errs, e = CO_ERROR_NO)
      ∧ CO_txTask twai (idxs.length + 1) m1 = some (m2, sent)
      ∧ (∀ p ∈ sent, p.2 = true)
      ∧ (sent.map Prod.fst).Sorted (· < ·)
      ∧ (sent.map Prod.fst).Perm idxs
      ∧ m2.CANtxCount = 0 ∧ fullSlots m2 = [] := by
  obtain ⟨m1, errs, h1, h2, _, h4, h5, h6⟩ :=
    sendAll_free idxs m hsz h16 (by rw [hfree, hcount]; rfl) hnd hlt
      (by intro i _; rw [hfree]; simp)
  have hperm : (fullSlots m1).Perm idxs :=
    (List.perm_ext_iff_of_nodup (fullSlots_nodup m1) hnd).mpr
      (by intro j; rw [h6 j, hfree]; simp)
  have hlen : (fullSlots m1).length = idxs.length := hperm.length_eq
  have hbound : idxs.length < 65536 := by
    have : (fullSlots m1).length ≤ m1.txSize := fullFrom_length_le _ _ _
    omega
  obtain ⟨m2, hloop, hc2, hf2, _⟩ := txTaskLoop_all_accepted twai hok idxs.length
    { m1 with firstCANtxMessage := false, bufferInhibitFlag := false } 0 []
    hlen (by show m1.CANtxCount = _; rw [h5, hlen]) hbound
  have hslots : fullSlots { m1 with firstCANtxMessage := false, bufferInhibitFlag := false }
      = fullSlots m1 := rfl
  rw [hslots, List.nil_append] at hloop
  refine ⟨m1, errs, m2, _, h1, h2, hloop, ?_, ?_, ?_, hc2, hf2⟩
  · intro p hp
    obtain ⟨i, _, rfl⟩ := List.mem_map.mp hp
    rfl
  · have hmap : ((fullSlots m1).map (fun i => (i, true))).map Prod.fst = fullSlots m1 := by
      simp [List.map_map, Function.comp_def]
    rw [hmap]
    exact fullFrom_sorted _ _ _
  · have hmap : ((fullSlots m1).map (fun i => (i, true))).map Prod.fst = fullSlots m1 := by
      simp [List.map_map, Function.comp_def]
    rw [hmap]
    exact hperm

/-- Slots 2, 0, 1 submitted in that order to a fresh module of three slots, the
controller accepting every frame. -/
theorem CO_txTask_ascending_when_accepted_witness :
    ∃ m1 errs m2 sent,
      sendAll (freshModule 3) [2, 0, 1] = some (m1, errs) ∧ (∀ e ∈ errs, e = CO_ERROR_NO)
      ∧ CO_txTask twaiOk ([2, 0, 1].length + 1) m1 = some (m2, sent)
      ∧ (∀ p ∈ sent, p.2 = true)
      ∧ (sent.map Prod.fst).Sorted (· < ·)
      ∧ (sent.map Prod.fst).Perm [2, 0, 1]
      ∧ m2.CANtxCount = 0 ∧ fullSlots m2 = [] :=
  CO_txTask_ascending_when_accepted (freshModule 3) [2, 0, 1] twaiOk (by decide) (by decide)
    (by decide) (by decide) (by decide) (by decide) (fun _ => rfl)

/-! ### What `CO_CANmodule_init` and a wake of `CO_txTask` establish -/

theorem fullFrom_initTxArray (tx : List CO_CANtx_t) :
    ∀ (n i : Nat), fullFrom (initTxArray tx n) n i = [] := by
  induction tx with
  | nil => intro n i; simp [initTxArray, fullFrom]
  | cons a rest ih =>
      intro n i
      cases n with
      | zero => simp [initTxArray, fullFrom]
      | succ n => simp [initTxArray, fullFrom, ih n (i + 1)]

theorem initTxArray_length (tx : List CO_CANtx_t) :
    ∀ (n : Nat), (initTxArray tx n).length = tx.length := by
  induction tx with
  | nil => intro n; simp [initTxArray]
  | cons a rest ih =>
      intro n
      cases n with
      | zero => simp [initTxArray]
      | succ n => simp [initTxArray, ih n]

theorem CO_CANmodule_init_module (cfg : List Nat) (env : InitEnv) (drv : DriverState)
    (old : Option CO_CANmodule_t) (CANptr : Option Nat) (rx : Option (List CO_CANrx_t))
    (rxSize : Nat) (tx : Option (List CO_CANtx_t)) (txSize rate : Nat) (m : CO_CANmodule_t)
    (hret : (CO_CANmodule_init cfg env drv old CANptr rx rxSize tx txSize rate).ret
              = some CO_ERROR_NO)
    (hm : (CO_CANmodule_init cfg env drv old CANptr rx rxSize tx txSize rate).module = some m) :
    ∃ rx0 tx0, rx = some rx0 ∧ tx = some tx0 ∧
      m = { CANptr := CANptr
            rxArray := initRxArray rx0 rxSize
            rxSize := rxSize
            txArray := initTxArray tx0 txSize
            txSize := txSize
            CANerrorStatus := 0
            CANnormal := false
            useCANrxFilters := false
            bufferInhibitFlag := false
            firstCANtxMessage := true
            CANtxCount := 0
            errOld := 0 } := by
  unfold CO_CANmodule_init at hret hm
  cases old with
  | none => simp at hret
  | some o =>
      cases rx with
      | none => simp at hret
      | some rx0 =>
          cases tx with
          | none => simp at hret
          | some tx0 =>
              refine ⟨rx0, tx0, rfl, rfl, ?_⟩
              simp only at hm
              split_ifs at hm <;> first
                | (simp only [Option.some.injEq] at hm; exact hm.symm)
                | (split at hm <;> first
                    | (simp only [Option.some.injEq] at hm; exact hm.symm)
                    | (split at hm <;> (simp only [Option.some.injEq] at hm; exact hm.symm)))

theorem CO_CANmodule_init_fresh (cfg : List Nat) (env : InitEnv) (drv : DriverState)
    (old : Option CO_CANmodule_t) (CANptr : Option Nat) (rx : Option (List CO_CANrx_t))
    (rxSize : Nat) (tx : Option (List CO_CANtx_t)) (txSize rate : Nat) (m : CO_CANmodule_t)
    (hret : (CO_CANmodule_init cfg env drv old CANptr rx rxSize tx txSize rate).ret
              = some CO_ERROR_NO)
    (hm : (CO_CANmodule_init cfg env drv old CANptr rx rxSize tx txSize rate).module = some m) :
    m.firstCANtxMessage = true ∧ m.CANtxCount = 0 ∧ fullSlots m = []
      ∧ m.CANerrorStatus = 0 ∧ m.errOld = 0 ∧ m.txSize = txSize := by
  obtain ⟨rx0, tx0, _, _, h⟩ :=
    CO_CANmodule_init_module cfg env drv old CANptr rx rxSize tx txSize rate m hret hm
  subst h
  exact ⟨rfl, rfl, fullFrom_initTxArray tx0 txSize 0, rfl, rfl, rfl⟩

theorem txTaskPass_firstCANtxMessage (m : CO_CANmodule_t) (sendOk : Bool) :
    (txTaskPass m sendOk).1.firstCANtxMessage = m.firstCANtxMessage := by
  unfold txTaskPass
  split <;> rfl

theorem txTaskLoop_firstCANtxMessage (twai : Nat → Bool) :
    ∀ (fuel k : Nat) (m m1 : CO_CANmodule_t) (sent sent1 : List (Nat × Bool)),
      txTaskLoop twai fuel k m sent = some (m1, sent1) →
      m1.firstCANtxMessage = m.firstCANtxMessage := by
  intro fuel
  induction fuel with
  | zero => intro k m m1 sent sent1 h; simp [txTaskLoop] at h
  | succ fuel ih =>
      intro k m m1 sent sent1 h
      rw [txTaskLoop] at h
      by_cases hpos : m.CANtxCount > 0
      · simp only [hpos, if_true] at h
        have hp := txTaskPass_firstCANtxMessage m (twai k)
        cases hpass : txTaskPass m (twai k) with
        | mk m2 r =>
            rw [hpass] at h hp
            cases r with
            | none => rw [ih k m2 m1 sent sent1 h]; exact hp
            | some i => rw [ih (k + 1) m2 m1 _ sent1 h]; exact hp
      · simp only [hpos, if_false, Option.some.injEq, Prod.mk.injEq] at h
        rw [← h.1]

theorem CO_txTask_firstCANtxMessage (twai : Nat → Bool) (fuel : Nat) (m m1 : CO_CANmodule_t)
    (sent : List (Nat × Bool)) (h : CO_txTask twai fuel m = some (m1, sent)) :
    m1.firstCANtxMessage = false := by
  unfold CO_txTask at h
  rw [txTaskLoop_firstCANtxMessage twai fuel 0 _ m1 [] sent h]

/-! ### The transmit-warning and transmit-passive bits as the code computes them -/

theorem processStatus_tx_passive (s tx rx ovf : Nat) (htx : tx < 256) :
    (processStatus s tx rx ovf).testBit 1 = decide (128 ≤ tx) := by
  have h256 : ¬ 256 ≤ tx := by omega
  unfold processStatus CO_CAN_ERRTX_BUS_OFF CO_CAN_ERRRX_WARNING CO_CAN_ERRRX_PASSIVE
    CO_CAN_ERRTX_WARNING CO_CAN_ERRTX_PASSIVE CO_CAN_ERRTX_OVERFLOW CO_CAN_ERRRX_OVERFLOW
  simp only [ge_iff_le, h256, if_false]
  by_cases h128 : 128 ≤ tx
  · split_ifs <;> simp +decide [h128]
  · split_ifs <;> simp +decide [h128]

theorem processStatus_tx_warning (s tx rx ovf : Nat) (htx : tx < 256) :
    (processStatus s tx rx ovf).testBit 0 = decide (128 ≤ tx ∨ 96 ≤ rx) := by
  have h256 : ¬ 256 ≤ tx := by omega
  unfold processStatus CO_CAN_ERRTX_BUS_OFF CO_CAN_ERRRX_WARNING CO_CAN_ERRRX_PASSIVE
    CO_CAN_ERRTX_WARNING CO_CAN_ERRTX_PASSIVE CO_CAN_ERRTX_OVERFLOW CO_CAN_ERRRX_OVERFLOW
  simp only [ge_iff_le, h256, if_false]
  by_cases h128 : 128 ≤ tx
  · split_ifs <;> simp +decide [h128]
  · by_cases h96 : 96 ≤ rx
    · split_ifs <;> simp +decide [h128, h96]
    · split_ifs <;> simp +decide [h128, h96]

/-! ### A pass of the drain loop whose send attempt fails -/

theorem txTaskPass_refused (m : CO_CANmodule_t) (i : Nat) (b : CO_CANtx_t)
    (hs : txScan m.txArray m.txSize 0 = some (i, b)) :
    txTaskPass m false
      = ({ m with
             CANtxCount := (m.CANtxCount + 65535) % 65536
             bufferInhibitFlag := b.syncFlag }, some i) := by
  simp [txTaskPass, hs]

theorem txTaskPass_refused_txArray (m : CO_CANmodule_t) :
    (txTaskPass m false).1.txArray = m.txArray := by
  unfold txTaskPass
  split <;> simp

/-! ### The concrete module `freshModule` is what `CO_CANmodule_init` delivers -/

theorem initTxArray_replicate_zeroTx :
    ∀ (n : Nat), initTxArray (List.replicate n zeroTx) n = List.replicate n zeroTx := by
  intro n
  induction n with
  | zero => rfl
  | succ n ih =>
      rw [List.replicate_succ, initTxArray, ih]
      rfl

theorem CO_CANmodule_init_freshModule (n : Nat) :
    CO_CANmodule_init [125, 250, 500] goodEnv coldDriver (some zeroModule) none
        (some [zeroRx]) 1 (some (List.replicate n zeroTx)) n 125
      = { ret := some CO_ERROR_NO
          module := some (freshModule n)
          driver :=
            { bInstalled := true, xCoTxTaskHandle := some 1, xCoRxTaskHandle := some 2
              twaiInstalled := true, twaiStarted := true } } := by
  simp [CO_CANmodule_init, baudrateSearch, goodEnv, coldDriver, freshModule, initRxArray,
    initTxArray_replicate_zeroTx]

/-! ### The two ways of counting full slots agree -/

theorem countP_take_eq_length_fullFrom (l : List CO_CANtx_t) :
    ∀ (n i : Nat),
      (l.take n).countP (fun b => b.bufferFull) = (fullFrom l n i).length := by
  induction l with
  | nil => intro n i; simp [fullFrom]
  | cons a rest ih =>
      intro n i
      cases n with
      | zero => simp [fullFrom]
      | succ n =>
          by_cases ha : a.bufferFull = true
          · simp [fullFrom, ha, List.countP_cons, ih n (i + 1)]
          · simp [fullFrom, ha, List.countP_cons, ih n (i + 1)]

theorem fullCount_eq_length_fullSlots (m : CO_CANmodule_t) :
    fullCount m = (fullSlots m).length :=
  countP_take_eq_length_fullFrom m.txArray m.txSize 0

/-! ### Sync-window abort (`CO_CANclearPendingSyncPDOs`) -/

theorem reachable_freshModule (n : Nat) (hn : n < 65536) : Reachable (freshModule n) := by
  have h := CO_CANmodule_init_freshModule n
  have hlen : (List.replicate n zeroTx).length = n := List.length_replicate n zeroTx
  exact Reachable.init [125, 250, 500] goodEnv coldDriver _ zeroModule (freshModule n) none
    [zeroRx] (List.replicate n zeroTx) 125 (by decide) (by rw [hlen]; exact hn)
    (by rw [hlen]; exact h)

theorem reachable_syncPendingModule : Reachable syncPendingModule := by
  have h0 : Reachable (freshModule 1) := reachable_freshModule 1 (by decide)
  have h1 : Reachable syncModule :=
    Reachable.txBufferInit (freshModule 1) syncModule 0 0x181 false 8 true h0 (by decide)
  exact Reachable.send syncModule syncPendingModule 0 CO_ERROR_NO h1 (by decide) (by decide)

/-- C11, counterexample. The module state `syncSentModule` is reachable (one
synchronous slot configured, submitted, and accepted by the controller in a
wake of `CO_txTask`); in it `CANtxCount` is 0 and no slot is full, yet
`CO_CANclearPendingSyncPDOs` changes `CANerrorStatus` from 0 to 0x0080: it sets
`CO_CAN_ERRTX_PDO_LATE`, because `bufferInhibitFlag` was set. -/
theorem clearPendingSyncPDOs_inhibit_sets_late :
    Reachable syncSentModule
    ∧ syncSentModule.CANtxCount = 0 ∧ fullSlots syncSentModule = []
    ∧ syncSentModule.bufferInhibitFlag = true
    ∧ syncSentModule.CANerrorStatus = 0
    ∧ (CO_CANclearPendingSyncPDOs syncSentModule).CANerrorStatus = 0x0080
    ∧ hasBit (CO_CANclearPendingSyncPDOs syncSentModule).CANerrorStatus
        CO_CAN_ERRTX_PDO_LATE = true := by
  refine ⟨?_, by decide, by decide, by decide, by decide, by decide, by decide⟩
  exact Reachable.txTask syncPendingModule syncSentModule twaiOk 2 [(0, true)]
    reachable_syncPendingModule (by decide)

/-- C11, amended. For every module state in which `CANtxCount` is 0 and
`bufferInhibitFlag` is clear, `CO_CANclearPendingSyncPDOs` aborts nothing (the
transmit slots and `CANtxCount` are unchanged) and leaves `CANerrorStatus`
unchanged, in particular the bit `CO_CAN_ERRTX_PDO_LATE`; the module is left as
it was. -/
theorem clearPendingSyncPDOs_idle (m : CO_CANmodule_t) (hcount : m.CANtxCount = 0)
    (hinhibit : m.bufferInhibitFlag = false) :
    (CO_CANclearPendingSyncPDOs m).txArray = m.txArray
    ∧ (CO_CANclearPendingSyncPDOs m).CANtxCount = m.CANtxCount
    ∧ (CO_CANclearPendingSyncPDOs m).CANerrorStatus = m.CANerrorStatus
    ∧ hasBit (CO_CANclearPendingSyncPDOs m).CANerrorStatus CO_CAN_ERRTX_PDO_LATE
        = hasBit m.CANerrorStatus CO_CAN_ERRTX_PDO_LATE
    ∧ CO_CANclearPendingSyncPDOs m = m := by
  have h : CO_CANclearPendingSyncPDOs m = m := by
    cases m
    simp only at hcount hinhibit
    subst hcount hinhibit
    simp [CO_CANclearPendingSyncPDOs]
  rw [h]
  exact ⟨rfl, rfl, rfl, rfl, rfl⟩

/-- C11, witness of the amended statement: a module fresh from
`CO_CANmodule_init` with three transmit slots. -/
theorem clearPendingSyncPDOs_idle_witness :
    (CO_CANclearPendingSyncPDOs (freshModule 3)).txArray = (freshModule 3).txArray
    ∧ (CO_CANclearPendingSyncPDOs (freshModule 3)).CANtxCount = (freshModule 3).CANtxCount
    ∧ (CO_CANclearPendingSyncPDOs (freshModule 3)).CANerrorStatus
        = (freshModule 3).CANerrorStatus
    ∧ hasBit (CO_CANclearPendingSyncPDOs (freshModule 3)).CANerrorStatus
        CO_CAN_ERRTX_PDO_LATE = hasBit (freshModule 3).CANerrorStatus CO_CAN_ERRTX_PDO_LATE
    ∧ CO_CANclearPendingSyncPDOs (freshModule 3) = freshModule 3 :=
  clearPendingSyncPDOs_idle (freshModule 3) (by decide) (by decide)

theorem clearSyncLoop_length (l : List CO_CANtx_t) :
    ∀ (n cnt del : Nat), (clearSyncLoop l n cnt del).1.length = l.length := by
  induction l with
  | nil => intro n cnt del; simp [clearSyncLoop]
  | cons a rest ih =>
      intro n cnt del
      cases n with
      | zero => simp [clearSyncLoop]
      | succ n =>
          cases ha : (a.bufferFull && a.syncFlag) with
          | true => simp [clearSyncLoop, ha, ih]
          | false => simp [clearSyncLoop, ha, ih]

theorem clearSyncLoop_freed (l : List CO_CANtx_t) :
    ∀ (n cnt del k : Nat) (b : CO_CANtx_t), l[k]? = some b → k < n →
      b.bufferFull = true → b.syncFlag = true →
      (clearSyncLoop l n cnt del).1[k]? = some { b with bufferFull := false } := by
  induction l with
  | nil => intro n cnt del k b hb; simp at hb
  | cons a rest ih =>
      intro n cnt del k b hb hk hfull hsync
      cases n with
      | zero => omega
      | succ n =>
          cases k with
          | zero =>
              simp only [List.getElem?_cons_zero, Option.some.injEq] at hb
              subst hb
              simp [clearSyncLoop, hfull, hsync]
          | succ k =>
              simp only [List.getElem?_cons_succ] at hb
              cases ha : (a.bufferFull && a.syncFlag) with
              | true =>
                  simp only [clearSyncLoop, ha, if_true, List.getElem?_cons_succ]
                  exact ih n _ 2 k b hb (by omega) hfull hsync
              | false =>
                  simp only [clearSyncLoop, ha, Bool.false_eq_true, if_false,
                    List.getElem?_cons_succ]
                  exact ih n cnt del k b hb (by omega) hfull hsync

theorem clearSyncLoop_kept (l : List CO_CANtx_t) :
    ∀ (n cnt del k : Nat) (b : CO_CANtx_t), l[k]? = some b →
      ¬ (k < n ∧ b.bufferFull = true ∧ b.syncFlag = true) →
      (clearSyncLoop l n cnt del).1[k]? = some b := by
  induction l with
  | nil => intro n cnt del k b hb; simp at hb
  | cons a rest ih =>
      intro n cnt del k b hb hnot
      cases n with
      | zero => simpa [clearSyncLoop] using hb
      | succ n =>
          cases k with
          | zero =>
              simp only [List.getElem?_cons_zero, Option.some.injEq] at hb
              subst hb
              have ha : (a.bufferFull && a.syncFlag) = false := by
                cases h : (a.bufferFull && a.syncFlag) with
                | false => rfl
                | true =>
                    simp only [Bool.and_eq_true] at h
                    exact absurd ⟨by omega, h.1, h.2⟩ hnot
              simp [clearSyncLoop, ha]
          | succ k =>
              simp only [List.getElem?_cons_succ] at hb
              have hnot1 : ¬ (k < n ∧ b.bufferFull = true ∧ b.syncFlag = true) := by
                intro h
                exact hnot ⟨by omega, h.2.1, h.2.2⟩
              cases ha : (a.bufferFull && a.syncFlag) with
              | true =>
                  simp only [clearSyncLoop, ha, if_true, List.getElem?_cons_succ]
                  exact ih n _ 2 k b hb hnot1
              | false =>
                  simp only [clearSyncLoop, ha, Bool.false_eq_true, if_false,
                    List.getElem?_cons_succ]
                  exact ih n cnt del k b hb hnot1

theorem clearSyncLoop_count (l : List CO_CANtx_t) :
    ∀ (n cnt del : Nat),
      (l.take n).countP (fun b => b.bufferFull && b.syncFlag) ≤ cnt → cnt < 65536 →
      (clearSyncLoop l n cnt del).2.1
        + (l.take n).countP (fun b => b.bufferFull && b.syncFlag) = cnt := by
  induction l with
  | nil => intro n cnt del _ _; simp [clearSyncLoop]
  | cons a rest ih =>
      intro n cnt del hle h16
      cases n with
      | zero => simp [clearSyncLoop]
      | succ n =>
          cases ha : (a.bufferFull && a.syncFlag) with
          | true =>
              simp only [List.take_succ_cons, List.countP_cons, ha, if_true] at hle ⊢
              simp only [clearSyncLoop, ha, if_true]
              have := ih n ((cnt + 65535) % 65536) 2 (by omega) (by omega)
              omega
          | false =>
              simp only [List.take_succ_cons, List.countP_cons, ha, Bool.false_eq_true,
                if_false, Nat.add_zero] at hle ⊢
              simp only [clearSyncLoop, ha, Bool.false_eq_true, if_false]
              exact ih n cnt del hle h16

theorem clearSyncLoop_deleted (l : List CO_CANtx_t) :
    ∀ (n cnt del : Nat),
      0 < (l.take n).countP (fun b => b.bufferFull && b.syncFlag) ∨ del ≠ 0 →
      (clearSyncLoop l n cnt del).2.2 ≠ 0 := by
  induction l with
  | nil => intro n cnt del h; simpa [clearSyncLoop] using h
  | cons a rest ih =>
      intro n cnt del h
      cases n with
      | zero => simpa [clearSyncLoop] using h
      | succ n =>
          cases ha : (a.bufferFull && a.syncFlag) with
          | true =>
              simp only [clearSyncLoop, ha, if_true]
              exact ih n _ 2 (Or.inr (by decide))
          | false =>
              simp only [List.take_succ_cons, List.countP_cons, ha, Bool.false_eq_true,
                if_false, Nat.add_zero] at h
              simp only [clearSyncLoop, ha, Bool.false_eq_true, if_false]
              exact ih n cnt del h

theorem countP_take_eq_zero (l : List CO_CANtx_t) :
    ∀ (n k : Nat) (b : CO_CANtx_t),
      (l.take n).countP (fun b => b.bufferFull && b.syncFlag) = 0 →
      l[k]? = some b → k < n → ¬ (b.bufferFull = true ∧ b.syncFlag = true) := by
  induction l with
  | nil => intro n k b _ hb; simp at hb
  | cons a rest ih =>
      intro n k b h0 hb hk
      cases n with
      | zero => omega
      | succ n =>
          cases ha : (a.bufferFull && a.syncFlag) with
          | true => simp [List.take_succ_cons, List.countP_cons, ha] at h0
          | false =>
              simp only [List.take_succ_cons, List.countP_cons, ha, Bool.false_eq_true,
                if_false, Nat.add_zero] at h0
              cases k with
              | zero =>
                  simp only [List.getElem?_cons_zero, Option.some.injEq] at hb
                  subst hb
                  intro h
                  simp [h.1, h.2] at ha
              | succ k =>
                  simp only [List.getElem?_cons_succ] at hb
                  exact ih n k b h0 hb (by omega)

theorem hasBit_PDO_LATE (s : Nat) : hasBit s CO_CAN_ERRTX_PDO_LATE = s.testBit 7 :=
  hasBit_two_pow s 7

theorem clearPendingSyncPDOs_of_count_zero (m : CO_CANmodule_t) (hc : m.CANtxCount = 0) :
    (CO_CANclearPendingSyncPDOs m).txArray = m.txArray
    ∧ (CO_CANclearPendingSyncPDOs m).CANtxCount = 0 := by
  unfold CO_CANclearPendingSyncPDOs
  simp only [hc, ne_eq, not_true_eq_false, if_false]
  split_ifs <;> exact ⟨rfl, rfl⟩

theorem clearPendingSyncPDOs_of_count_pos (m : CO_CANmodule_t) (hc : m.CANtxCount ≠ 0) :
    (CO_CANclearPendingSyncPDOs m).txArray
        = (clearSyncLoop m.txArray m.txSize m.CANtxCount
            (if m.bufferInhibitFlag then 1 else 0)).1
    ∧ (CO_CANclearPendingSyncPDOs m).CANtxCount
        = (clearSyncLoop m.txArray m.txSize m.CANtxCount
            (if m.bufferInhibitFlag then 1 else 0)).2.1
    ∧ ((clearSyncLoop m.txArray m.txSize m.CANtxCount
            (if m.bufferInhibitFlag then 1 else 0)).2.2 ≠ 0 →
        (CO_CANclearPendingSyncPDOs m).CANerrorStatus
          = m.CANerrorStatus ||| CO_CAN_ERRTX_PDO_LATE) := by
  unfold CO_CANclearPendingSyncPDOs
  simp only [ne_eq, hc, not_false_eq_true, if_true]
  refine ⟨?_, ?_, ?_⟩
  · split_ifs <;> rfl
  · split_ifs <;> rfl
  · intro h
    simp only [h, not_false_eq_true, if_true]

/-- C12, counterexample. The module state `syncStuckModule` is reachable (a
synchronous slot configured and submitted, then a wake of `CO_txTask` in which
the controller refused the frame): `CANtxCount` is 0 and slot 0 is full and
marked `syncFlag`. `CO_CANclearPendingSyncPDOs` skips its scan because
`CANtxCount` is 0: afterwards slot 0 is still full and marked `syncFlag`. -/
theorem clearPendingSyncPDOs_skips_scan_at_count_zero :
    Reachable syncStuckModule
    ∧ syncStuckModule.CANtxCount = 0
    ∧ syncStuckModule.txArray[0]? = some { syncTx with bufferFull := true }
    ∧ syncFullCount syncStuckModule = 1
    ∧ (CO_CANclearPendingSyncPDOs syncStuckModule).txArray[0]?
        = some { syncTx with bufferFull := true }
    ∧ ({ syncTx with bufferFull := true } : CO_CANtx_t).bufferFull = true
    ∧ ({ syncTx with bufferFull := true } : CO_CANtx_t).syncFlag = true := by
  refine ⟨?_, by decide, by decide, by decide, by decide, by decide, by decide⟩
  exact Reachable.txTask syncPendingModule syncStuckModule twaiFail 2 [(0, false)]
    reachable_syncPendingModule (by decide)

/-- C12, amended. For every module state whose `CANtxCount` is at least the
number of slots that are full and marked `syncFlag` (as it is whenever
`CANtxCount` equals the number of full slots), after
`CO_CANclearPendingSyncPDOs`: no transmit slot is both full and marked
`syncFlag`; `CANtxCount` has decreased by exactly the number of slots that were
full and `syncFlag` before the call; each of those slots has only its
`bufferFull` cleared and every other slot is unchanged; and
`CO_CAN_ERRTX_PDO_LATE` is set if at least one slot was freed. -/
theorem clearPendingSyncPDOs_frees_sync_slots (m : CO_CANmodule_t)
    (h16 : m.CANtxCount < 65536) (hle : syncFullCount m ≤ m.CANtxCount) :
    (∀ i b, i < m.txSize → (CO_CANclearPendingSyncPDOs m).txArray[i]? = some b →
        ¬ (b.bufferFull = true ∧ b.syncFlag = true))
    ∧ (CO_CANclearPendingSyncPDOs m).CANtxCount + syncFullCount m = m.CANtxCount
    ∧ (∀ i b, m.txArray[i]? = some b → i < m.txSize → b.bufferFull = true →
        b.syncFlag = true →
        (CO_CANclearPendingSyncPDOs m).txArray[i]? = some { b with bufferFull := false })
    ∧ (∀ i b, m.txArray[i]? = some b →
        ¬ (i < m.txSize ∧ b.bufferFull = true ∧ b.syncFlag = true) →
        (CO_CANclearPendingSyncPDOs m).txArray[i]? = some b)
    ∧ (0 < syncFullCount m →
        hasBit (CO_CANclearPendingSyncPDOs m).CANerrorStatus CO_CAN_ERRTX_PDO_LATE = true) := by
  by_cases hc : m.CANtxCount = 0
  · obtain ⟨h1, h2⟩ := clearPendingSyncPDOs_of_count_zero m hc
    have h0 : (m.txArray.take m.txSize).countP (fun b => b.bufferFull && b.syncFlag) = 0 := by
      unfold syncFullCount at hle; omega
    have hs0 : syncFullCount m = 0 := h0
    rw [h1, h2, hs0, hc]
    refine ⟨?_, rfl, ?_, ?_, ?_⟩
    · intro i b hi hb
      exact countP_take_eq_zero m.txArray m.txSize i b h0 hb hi
    · intro i b hb hi hfull hsync
      exact absurd ⟨hfull, hsync⟩ (countP_take_eq_zero m.txArray m.txSize i b h0 hb hi)
    · intro i b hb _
      exact hb
    · intro h
      omega
  · obtain ⟨h1, h2, h3⟩ := clearPendingSyncPDOs_of_count_pos m hc
    rw [h1, h2]
    refine ⟨?_, ?_, ?_, ?_, ?_⟩
    · intro i b hi hb
      have hlen := clearSyncLoop_length m.txArray m.txSize m.CANtxCount
        (if m.bufferInhibitFlag then 1 else 0)
      have hilt : i < m.txArray.length := by
        by_contra hge
        rw [List.getElem?_eq_none (by omega)] at hb
        simp at hb
      have hb0 : m.txArray[i]? = some m.txArray[i] := List.getElem?_eq_getElem hilt
      by_cases hp : (m.txArray[i]).bufferFull = true ∧ (m.txArray[i]).syncFlag = true
      · have hf := clearSyncLoop_freed m.txArray m.txSize m.CANtxCount
          (if m.bufferInhibitFlag then 1 else 0) i _ hb0 hi hp.1 hp.2
        rw [hf] at hb
        simp only [Option.some.injEq] at hb
        subst hb
        simp
      · have hk := clearSyncLoop_kept m.txArray m.txSize m.CANtxCount
          (if m.bufferInhibitFlag then 1 else 0) i _ hb0 (fun h => hp ⟨h.2.1, h.2.2⟩)
        rw [hk] at hb
        simp only [Option.some.injEq] at hb
        subst hb
        exact hp
    · exact clearSyncLoop_count m.txArray m.txSize m.CANtxCount _ hle h16
    · intro i b hb hi hfull hsync
      exact clearSyncLoop_freed m.txArray m.txSize m.CANtxCount _ i b hb hi hfull hsync
    · intro i b hb hnot
      exact clearSyncLoop_kept m.txArray m.txSize m.CANtxCount _ i b hb hnot
    · intro hpos
      have hdel := clearSyncLoop_deleted m.txArray m.txSize m.CANtxCount
        (if m.bufferInhibitFlag then 1 else 0) (Or.inl hpos)
      rw [h3 hdel, hasBit_PDO_LATE]
      unfold CO_CAN_ERRTX_PDO_LATE
      simp only [Nat.testBit_or]
      simp [Nat.testBit]

/-- C12, witness of the amended statement: `syncPendingModule`, one full
synchronous slot and `CANtxCount` 1. -/
theorem clearPendingSyncPDOs_frees_sync_slots_witness :
    (CO_CANclearPendingSyncPDOs syncPendingModule).CANtxCount
        + syncFullCount syncPendingModule = syncPendingModule.CANtxCount
    ∧ (CO_CANclearPendingSyncPDOs syncPendingModule).txArray[0]? = some syncTx
    ∧ hasBit (CO_CANclearPendingSyncPDOs syncPendingModule).CANerrorStatus
        CO_CAN_ERRTX_PDO_LATE = true :=
  have h := clearPendingSyncPDOs_frees_sync_slots syncPendingModule (by decide) (by decide)
  ⟨h.2.1,
   h.2.2.1 0 { syncTx with bufferFull := true } (by decide) (by decide) (by decide) (by decide),
   h.2.2.2.2 (by decide)⟩

/-! ### Argument and bit-rate checks of `CO_CANmodule_init` -/

theorem baudrateSearch_lt_iff (cfg : List Nat) (rate : Nat) :
    baudrateSearch cfg rate < cfg.length ↔ rate ∈ cfg := by
  induction cfg with
  | nil => simp [baudrateSearch]
  | cons k rest ih =>
      by_cases h : rate = k
      · simp [baudrateSearch, h]
      · simp [baudrateSearch, h, ih]

/-- C13, counterexample. With all three pointers present, a supported bit rate,
and `rxSize = 0`, `txSize = 0`, `CO_CANmodule_init` returns `CO_ERROR_NO` (and
installs and starts the controller); so it does with `rxSize = 0` alone and with
`txSize = 0` alone. -/
theorem CO_CANmodule_init_accepts_zero_sizes :
    CO_CANmodule_init [125, 250, 500] goodEnv coldDriver (some zeroModule) none
        (some []) 0 (some []) 0 125
      = { ret := some CO_ERROR_NO
          module := some { freshModule 0 with rxArray := [], rxSize := 0 }
          driver :=
            { bInstalled := true, xCoTxTaskHandle := some 1, xCoRxTaskHandle := some 2
              twaiInstalled := true, twaiStarted := true } }
    ∧ (CO_CANmodule_init [125, 250, 500] goodEnv coldDriver (some zeroModule) none
        (some [zeroRx]) 0 (some [zeroTx]) 1 125).ret = some CO_ERROR_NO
    ∧ (CO_CANmodule_init [125, 250, 500] goodEnv coldDriver (some zeroModule) none
        (some [zeroRx]) 1 (some [zeroTx]) 0 125).ret = some CO_ERROR_NO := by
  decide

/-- C13, amended. `CO_CANmodule_init` returns `CO_ERROR_ILLEGAL_ARGUMENT` exactly
when the module, receive array or transmit array pointer is absent, whatever
`rxSize` and `txSize` are; in that case it changes neither the module nor the
driver state. -/
theorem CO_CANmodule_init_illegal_argument (cfg : List Nat) (env : InitEnv)
    (drv : DriverState) (CANmodule : Option CO_CANmodule_t) (CANptr : Option Nat)
    (rxArray : Option (List CO_CANrx_t)) (rxSize : Nat)
    (txArray : Option (List CO_CANtx_t)) (txSize CANbitRate : Nat) :
    ((CO_CANmodule_init cfg env drv CANmodule CANptr rxArray rxSize txArray txSize
          CANbitRate).ret = some CO_ERROR_ILLEGAL_ARGUMENT
        ↔ (CANmodule = none ∨ rxArray = none ∨ txArray = none))
    ∧ ((CANmodule = none ∨ rxArray = none ∨ txArray = none) →
        CO_CANmodule_init cfg env drv CANmodule CANptr rxArray rxSize txArray txSize
            CANbitRate
          = { ret := some CO_ERROR_ILLEGAL_ARGUMENT, module := CANmodule, driver := drv }) := by
  cases CANmodule with
  | none => simp [CO_CANmodule_init]
  | some old =>
      cases rxArray with
      | none => simp [CO_CANmodule_init]
      | some rx =>
          cases txArray with
          | none => simp [CO_CANmodule_init]
          | some tx =>
              simp only [CO_CANmodule_init, reduceCtorEq, or_self, iff_false, false_implies,
                and_true]
              split_ifs <;> first
                | simp
                | (split <;> first
                    | simp
                    | (split <;> simp))

/-- C13, witness of the amended statement: an absent transmit array with
non-zero sizes, and present pointers with sizes 0. -/
theorem CO_CANmodule_init_illegal_argument_witness :
    CO_CANmodule_init [125, 250, 500] goodEnv coldDriver (some zeroModule) none
        (some [zeroRx]) 1 none 1 125
      = { ret := some CO_ERROR_ILLEGAL_ARGUMENT, module := some zeroModule
          driver := coldDriver }
    ∧ (CO_CANmodule_init [125, 250, 500] goodEnv coldDriver (some zeroModule) none
        (some []) 0 (some []) 0 125).ret ≠ some CO_ERROR_ILLEGAL_ARGUMENT :=
  ⟨(CO_CANmodule_init_illegal_argument [125, 250, 500] goodEnv coldDriver (some zeroModule)
      none (some [zeroRx]) 1 none 1 125).2 (by decide),
   fun h => absurd
     ((CO_CANmodule_init_illegal_argument [125, 250, 500] goodEnv coldDriver
        (some zeroModule) none (some []) 0 (some []) 0 125).1.mp h) (by decide)⟩

/-- C14. For every call of `CO_CANmodule_init` with the three pointers present
and a `CANbitRate` that is not an entry of the bit-rate table, the result is
`CO_ERROR_ILLEGAL_BAUDRATE` and the driver state is unchanged: the controller is
neither installed nor started, no task handle is written, and `bInstalled` keeps
its value. -/
theorem CO_CANmodule_init_illegal_baudrate (cfg : List Nat) (env : InitEnv)
    (drv : DriverState) (old : CO_CANmodule_t) (CANptr : Option Nat)
    (rx : List CO_CANrx_t) (rxSize : Nat) (tx : List CO_CANtx_t) (txSize CANbitRate : Nat)
    (hrate : CANbitRate ∉ cfg) :
    (CO_CANmodule_init cfg env drv (some old) CANptr (some rx) rxSize (some tx) txSize
        CANbitRate).ret = some CO_ERROR_ILLEGAL_BAUDRATE
    ∧ (CO_CANmodule_init cfg env drv (some old) CANptr (some rx) rxSize (some tx) txSize
        CANbitRate).driver = drv := by
  have h : baudrateSearch cfg CANbitRate ≥ cfg.length := by
    have := (baudrateSearch_lt_iff cfg CANbitRate).not.mpr hrate
    omega
  simp [CO_CANmodule_init, h]

/-- C14, witness: 300 kbit/s with a table of 125, 250 and 500 kbit/s on a driver
that is not installed. -/
theorem CO_CANmodule_init_illegal_baudrate_witness :
    (CO_CANmodule_init [125, 250, 500] goodEnv coldDriver (some zeroModule) none
        (some [zeroRx]) 1 (some [zeroTx]) 1 300).ret = some CO_ERROR_ILLEGAL_BAUDRATE
    ∧ (CO_CANmodule_init [125, 250, 500] goodEnv coldDriver (some zeroModule) none
        (some [zeroRx]) 1 (some [zeroTx]) 1 300).driver = coldDriver :=
  CO_CANmodule_init_illegal_baudrate [125, 250, 500] goodEnv coldDriver zeroModule none
    [zeroRx] 1 [zeroTx] 1 300 (by decide)

/-! ### Receive slot registration (`CO_CANrxBufferInit`) -/

/-- C15. `CO_CANrxBufferInit` returns `CO_ERROR_ILLEGAL_ARGUMENT` exactly when
the module is absent, the owner object or the callback is absent, or the index
is not below `rxSize`, and then leaves the module, with its receive filter
table, unchanged; otherwise it returns `CO_ERROR_NO`, every slot other than the
one at `index` is unchanged, that slot holds the owner, the callback, the
identifier `ident & 0x07FF` (with bit 0x0800 when `rtr`) and the mask
`(mask & 0x07FF) | 0x0800`, and no other field of the module changes. -/
theorem CO_CANrxBufferInit_result (CANmodule : Option CO_CANmodule_t)
    (index ident mask : Nat) (rtr : Bool) (object CANrx_callback : Option Nat) :
    ((CO_CANrxBufferInit CANmodule index ident mask rtr object CANrx_callback).2
          = CO_ERROR_ILLEGAL_ARGUMENT
        ↔ (CANmodule = none ∨ object = none ∨ CANrx_callback = none
            ∨ ∃ m, CANmodule = some m ∧ m.rxSize ≤ index))
    ∧ ((CO_CANrxBufferInit CANmodule index ident mask rtr object CANrx_callback).2
          = CO_ERROR_ILLEGAL_ARGUMENT →
        (CO_CANrxBufferInit CANmodule index ident mask rtr object CANrx_callback).1
          = CANmodule)
    ∧ ((CO_CANrxBufferInit CANmodule index ident mask rtr object CANrx_callback).2
          ≠ CO_ERROR_ILLEGAL_ARGUMENT →
        (CO_CANrxBufferInit CANmodule index ident mask rtr object CANrx_callback).2
          = CO_ERROR_NO
        ∧ ∃ m m1, CANmodule = some m
          ∧ (CO_CANrxBufferInit CANmodule index ident mask rtr object CANrx_callback).1
              = some m1
          ∧ (∀ j, j ≠ index → m1.rxArray[j]? = m.rxArray[j]?)
          ∧ m1.rxArray.length = m.rxArray.length
          ∧ (index < m.rxArray.length →
              m1.rxArray[index]?
                = some { ident := if rtr then (ident &&& 0x07FF) ||| 0x0800
                                  else ident &&& 0x07FF
                         mask := (mask &&& 0x07FF) ||| 0x0800
                         object := object
                         CANrx_callback := CANrx_callback })
          ∧ m1 = { m with rxArray := m1.rxArray }) := by
  cases CANmodule with
  | none => simp [CO_CANrxBufferInit]
  | some m =>
      cases object with
      | none => simp [CO_CANrxBufferInit]
      | some obj =>
          cases CANrx_callback with
          | none => simp [CO_CANrxBufferInit]
          | some cb =>
              by_cases hi : index < m.rxSize
              · have hnot : ¬ m.rxSize ≤ index := by omega
                simp only [CO_CANrxBufferInit, hi, if_true, reduceCtorEq, false_or,
                  Option.some.injEq, exists_eq_left', hnot, iff_self, false_implies, ne_eq,
                  not_false_eq_true, true_implies, true_and]
                refine ⟨m, _, rfl, rfl, ?_, by simp, ?_, rfl⟩
                · intro j hj
                  exact List.getElem?_set_ne (Ne.symm hj)
                · intro hlen
                  simp only
                  rw [List.getElem?_set, if_pos rfl, if_pos hlen]
              · have hle : m.rxSize ≤ index := by omega
                simp [CO_CANrxBufferInit, hi, hle]

/-- C15, witness: registering slot 1 of three succeeds and leaves slots 0 and 2
as they were; index 3 and an absent callback are refused and change nothing. -/
theorem CO_CANrxBufferInit_result_witness :
    (CO_CANrxBufferInit (some rxFresh) 1 0x181 0x7FF false (some 7) (some 9)).2 = CO_ERROR_NO
    ∧ (CO_CANrxBufferInit (some rxFresh) 3 0x181 0x7FF false (some 7) (some 9)).1
        = some rxFresh
    ∧ (CO_CANrxBufferInit (some rxFresh) 1 0x181 0x7FF false (some 7) none).1
        = some rxFresh :=
  ⟨((CO_CANrxBufferInit_result (some rxFresh) 1 0x181 0x7FF false (some 7) (some 9)).2.2
      (by decide)).1,
   (CO_CANrxBufferInit_result (some rxFresh) 3 0x181 0x7FF false (some 7) (some 9)).2.1
      (by decide),
   (CO_CANrxBufferInit_result (some rxFresh) 1 0x181 0x7FF false (some 7) none).2.1
      (by decide)⟩

/-! ### The packed counter value of `CO_CANmodule_process` -/

theorem errValue_eq_add (si : twai_status_info_t) (hrx : rxErrors si < 256)
    (hov : overflow si < 256) :
    errValue si = txErrors si * 65536 + rxErrors si * 256 + overflow si := by
  unfold errValue
  rw [Nat.shiftLeft_eq, Nat.shiftLeft_eq]
  have h1 : txErrors si * 2 ^ 16 ||| rxErrors si * 2 ^ 8
      = 2 ^ 8 * (2 ^ 8 * txErrors si + rxErrors si) := by
    have hlt : rxErrors si * 2 ^ 8 < 2 ^ 16 := by omega
    have h := Nat.mul_add_lt_is_or hlt (txErrors si)
    rw [Nat.mul_comm (txErrors si) (2 ^ 16), ← h]
    omega
  rw [h1]
  have hlt2 : overflow si < 2 ^ 8 := by omega
  rw [← Nat.mul_add_lt_is_or hlt2]
  omega

/-- C16, counterexample. The samples (0 transmit errors, 1 receive error, 0
overruns) and (0, 0, 256 overruns) differ and are packed to the same value
0x100. A module that took the first sample skips the second one: its state is
unchanged, and the receive-overflow bit, which a recomputation would set for a
non-zero overrun count, stays clear. -/
theorem errValue_collision_skips_sample :
    rxErrors ⟨0, 1, 0⟩ ≠ rxErrors ⟨0, 0, 256⟩
    ∧ overflow ⟨0, 1, 0⟩ ≠ overflow ⟨0, 0, 256⟩
    ∧ errValue ⟨0, 1, 0⟩ = 0x100 ∧ errValue ⟨0, 0, 256⟩ = 0x100
    ∧ CO_CANmodule_process (CO_CANmodule_process (freshModule 1) (some ⟨0, 1, 0⟩))
          (some ⟨0, 0, 256⟩)
        = CO_CANmodule_process (freshModule 1) (some ⟨0, 1, 0⟩)
    ∧ hasBit (CO_CANmodule_process (CO_CANmodule_process (freshModule 1) (some ⟨0, 1, 0⟩))
          (some ⟨0, 0, 256⟩)).CANerrorStatus CO_CAN_ERRRX_OVERFLOW = false
    ∧ hasBit (processStatus
          (CO_CANmodule_process (freshModule 1) (some ⟨0, 1, 0⟩)).CANerrorStatus
          (txErrors ⟨0, 0, 256⟩) (rxErrors ⟨0, 0, 256⟩) (overflow ⟨0, 0, 256⟩))
        CO_CAN_ERRRX_OVERFLOW = true := by
  decide

/-- C16, amended. For every two samples whose receive error count and overrun
count (as truncated to 16 bits) are below 256, the value that
`CO_CANmodule_process` builds, `(txErrors << 16) | (rxErrors << 8) | overflow`,
differs when the counter triples differ; so for such samples, a sample whose
counters changed since the previous sample (the one whose value is in `errOld`)
is not skipped: it stores the new value in `errOld` and recomputes the
status. -/
theorem errValue_distinct_below_256 (m : CO_CANmodule_t) (prev si : twai_status_info_t)
    (hrxp : rxErrors prev < 256) (hovp : overflow prev < 256)
    (hrx : rxErrors si < 256) (hov : overflow si < 256)
    (hdiff : ¬ (txErrors prev = txErrors si ∧ rxErrors prev = rxErrors si
                ∧ overflow prev = overflow si)) :
    errValue prev ≠ errValue si
    ∧ (m.errOld = errValue prev →
        (CO_CANmodule_process m (some si)).errOld = errValue si
        ∧ (CO_CANmodule_process m (some si)).CANerrorStatus
            = processStatus m.CANerrorStatus (txErrors si) (rxErrors si) (overflow si)) := by
  have hne : errValue prev ≠ errValue si := by
    intro h
    rw [errValue_eq_add prev hrxp hovp, errValue_eq_add si hrx hov] at h
    apply hdiff
    omega
  refine ⟨hne, ?_⟩
  intro hold
  have hchg : m.errOld ≠ errValue si := by rw [hold]; exact hne
  simp [CO_CANmodule_process, hchg]

/-- C16, witness of the amended statement: the receive error count goes from 95
to 96 on a module whose last sample was (0, 95, 0). -/
theorem errValue_distinct_below_256_witness :
    errValue ⟨0, 95, 0⟩ ≠ errValue ⟨0, 96, 0⟩
    ∧ (CO_CANmodule_process (CO_CANmodule_process (freshModule 1) (some ⟨0, 95, 0⟩))
        (some ⟨0, 96, 0⟩)).errOld = errValue ⟨0, 96, 0⟩
    ∧ (CO_CANmodule_process (CO_CANmodule_process (freshModule 1) (some ⟨0, 95, 0⟩))
        (some ⟨0, 96, 0⟩)).CANerrorStatus
      = processStatus
          (CO_CANmodule_process (freshModule 1) (some ⟨0, 95, 0⟩)).CANerrorStatus
          (txErrors ⟨0, 96, 0⟩) (rxErrors ⟨0, 96, 0⟩) (overflow ⟨0, 96, 0⟩) :=
  have h := errValue_distinct_below_256
    (CO_CANmodule_process (freshModule 1) (some ⟨0, 95, 0⟩))
    ⟨0, 95, 0⟩ ⟨0, 96, 0⟩ (by decide) (by decide) (by decide) (by decide) (by decide)
  ⟨h.1, h.2 (by decide)⟩

/-! ### Termination of the drain loop of `CO_txTask` -/

theorem txTaskLoop_spins (twai : Nat → Bool) (m : CO_CANmodule_t)
    (hpos : m.CANtxCount > 0) (hscan : txScan m.txArray m.txSize 0 = none) :
    ∀ (fuel k : Nat) (sent : List (Nat × Bool)), txTaskLoop twai fuel k m sent = none := by
  intro fuel
  induction fuel with
  | zero => intro k sent; rfl
  | succ fuel ih =>
      intro k sent
      rw [txTaskLoop]
      simp only [hpos, if_true, txTaskPass, hscan]
      exact ih k sent

/-- C17, the code at the failing input. The module state `overcountedModule` is
reachable from a successful `CO_CANmodule_init` by two calls of `CO_CANsend` on
slot 0 (the second one on the already-full slot). In a wake of `CO_txTask` with
the controller accepting the frame, the first pass of the drain loop sends
slot 0 and leaves `CANtxCount` at 1 with no slot full; every further pass finds
no full slot and changes nothing, so the loop does not end: for every number of
passes allowed, the wake has not released the lock. -/
theorem CO_txTask_spins_after_overflow_submit :
    Reachable overcountedModule
    ∧ txTaskPass { overcountedModule with firstCANtxMessage := false } true
        = (drainedModule, some 0)
    ∧ drainedModule.CANtxCount = 1
    ∧ txTaskPass drainedModule true = (drainedModule, none)
    ∧ ∀ fuel, CO_txTask twaiOk fuel overcountedModule = none := by
  refine ⟨?_, by decide, by decide, by decide, ?_⟩
  · have h0 : Reachable (freshModule 1) := reachable_freshModule 1 (by decide)
    have h1 : Reachable pendingModule :=
      Reachable.send (freshModule 1) pendingModule 0 CO_ERROR_NO h0 (by decide) (by decide)
    exact Reachable.send pendingModule overcountedModule 0 CO_ERROR_TX_OVERFLOW h1
      (by decide) (by decide)
  · intro fuel
    cases fuel with
    | zero => rfl
    | succ fuel =>
        have hpass : txTaskPass
            { overcountedModule with firstCANtxMessage := false, bufferInhibitFlag := false }
            (twaiOk 0) = (drainedModule, some 0) := by decide
        have hpos : ({ overcountedModule with
            firstCANtxMessage := false, bufferInhibitFlag := false } :
              CO_CANmodule_t).CANtxCount > 0 := by decide
        unfold CO_txTask
        rw [txTaskLoop]
        simp only [hpos, if_true, hpass]
        exact txTaskLoop_spins twaiOk drainedModule (by decide) (by decide) fuel 1 _

theorem txTaskLoop_ends_of_count_le (twai : Nat → Bool) :
    ∀ (c : Nat) (m : CO_CANmodule_t) (k : Nat) (sent : List (Nat × Bool)),
      m.CANtxCount = c → c ≤ (fullSlots m).length → c < 65536 →
      ∃ m1 sent1, txTaskLoop twai (c + 1) k m sent = some (m1, sent ++ sent1)
        ∧ m1.CANtxCount = 0 ∧ sent1.length = c := by
  intro c
  induction c with
  | zero =>
      intro m k sent hcnt _ _
      refine ⟨m, [], ?_, hcnt, rfl⟩
      simp [txTaskLoop, hcnt]
  | succ c ih =>
      intro m k sent hcnt hle h16
      have hne : txScan m.txArray m.txSize 0 ≠ none := by
        intro hnone
        have hnil := (txScan_none_iff m.txArray m.txSize 0).mp hnone
        unfold fullSlots at hle
        rw [hnil] at hle
        simp at hle
      cases hs : txScan m.txArray m.txSize 0 with
      | none => exact absurd hs hne
      | some r =>
          obtain ⟨j, b⟩ := r
          obtain ⟨_, _, _, hfull⟩ := txScan_some m.txArray m.txSize 0 j b hs
          simp only [Nat.sub_zero] at hfull
          have hc : (c + 1 + 65535) % 65536 = c := by omega
          have hpos : m.CANtxCount > 0 := by omega
          obtain ⟨m2, hm2⟩ : ∃ m2 : CO_CANmodule_t, m2 = (txTaskPass m (twai k)).1 := ⟨_, rfl⟩
          have hpass : txTaskPass m (twai k) = (m2, some j) := by
            rw [hm2]; simp [txTaskPass, hs]
          have hcnt2 : m2.CANtxCount = c := by
            rw [hm2]; simp [txTaskPass, hs, hcnt, hc]
          have hle2 : c ≤ (fullSlots m2).length := by
            have hslots : fullSlots m = j :: fullFrom
                (m.txArray.set j { b with bufferFull := false }) m.txSize 0 := hfull
            rw [hslots] at hle
            simp only [List.length_cons] at hle
            cases hk : twai k with
            | true =>
                have h2 : fullSlots m2
                    = fullFrom (m.txArray.set j { b with bufferFull := false }) m.txSize 0 := by
                  rw [hm2]; simp [txTaskPass, hs, hk, fullSlots]
                rw [h2]; omega
            | false =>
                have h2 : fullSlots m2 = fullSlots m := by
                  rw [hm2]; simp [txTaskPass, hs, hk, fullSlots]
                rw [h2, hslots]
                simp only [List.length_cons]
                omega
          obtain ⟨m1, sent1, h1, h2, h3⟩ :=
            ih m2 (k + 1) (sent ++ [(j, twai k)]) hcnt2 hle2 (by omega)
          refine ⟨m1, (j, twai k) :: sent1, ?_, h2, by simp [h3]⟩
          rw [txTaskLoop]
          simp only [hpos, if_true, hpass]
          rw [h1]
          simp

/-- The drain loop ends whenever the count does not exceed the full slots. For
every module state whose `CANtxCount` is at most the number of full transmit
slots, and every sequence of outcomes of the controller send attempts, a wake of
`CO_txTask` ends after exactly `CANtxCount` send attempts with `CANtxCount`
equal to 0. -/
theorem CO_txTask_ends_of_count_le (twai : Nat → Bool) (m : CO_CANmodule_t)
    (hle : m.CANtxCount ≤ (fullSlots m).length) (h16 : m.CANtxCount < 65536) :
    ∃ m1 sent, CO_txTask twai (m.CANtxCount + 1) m = some (m1, sent)
      ∧ m1.CANtxCount = 0 ∧ sent.length = m.CANtxCount := by
  obtain ⟨m1, sent1, h1, h2, h3⟩ := txTaskLoop_ends_of_count_le twai m.CANtxCount
    { m with firstCANtxMessage := false, bufferInhibitFlag := false } 0 [] rfl hle h16
  exact ⟨m1, sent1, by simpa [CO_txTask] using h1, h2, h3⟩

/-- Three pending slots and a controller that refuses the first frame: the wake
ends after three send attempts. -/
theorem CO_txTask_ends_of_count_le_witness :
    ∃ m1 sent,
      CO_txTask twaiFailFirst
          (({ freshModule 3 with
                txArray := List.replicate 3 { zeroTx with bufferFull := true }
                CANtxCount := 3 } : CO_CANmodule_t).CANtxCount + 1)
          { freshModule 3 with
              txArray := List.replicate 3 { zeroTx with bufferFull := true }
              CANtxCount := 3 } = some (m1, sent)
      ∧ m1.CANtxCount = 0
      ∧ sent.length
          = ({ freshModule 3 with
                txArray := List.replicate 3 { zeroTx with bufferFull := true }
                CANtxCount := 3 } : CO_CANmodule_t).CANtxCount :=
  CO_txTask_ends_of_count_le twaiFailFirst
    { freshModule 3 with
        txArray := List.replicate 3 { zeroTx with bufferFull := true }
        CANtxCount := 3 } (by decide) (by decide)

end CANopenNode_ESP32
